import Mathlib

set_option maxRecDepth 10000

/-!
Verification of the question-generation swarm
(`backend/app/services/question_swarm.py` and
`backend/app/services/question_swarm_prompts.py`).

The Python source is shallowly embedded: pure helper functions become Lean
functions on `Nat` / `List` / `String`; the `json` standard-library calls
(`json.loads`) are modelled by an executable JSON parser over `List Char`;
worker/coordinator orchestration becomes explicit state passing, with the
Anthropic API represented as an oracle parameter and streaming-queue
arrival order represented as an explicit schedule list.

Numeric modelling notes:
* `_effective_batch_size` computes `int(8192 * 0.75 / (q * 100))` in Python
  floats.  `8192 * 0.75 = 6144` exactly, and `6144 / (100*q)` is never an
  integer (6144 has no factor 25), with distance at least `1/(100*q)` from
  any integer while the double rounding error is many orders smaller, so
  the float truncation agrees with natural-number division `6144 / (100*q)`.
* `_dynamic_max_tokens` computes `int(raw * 1.5)`; `raw * 1.5` is exactly
  `raw * 3 / 2` in binary floating point for the magnitudes involved and
  `int` truncation of a half-integer toward zero agrees with natural
  division by 2, so it is modelled as `raw * 3 / 2`.
-/

namespace QuestionSwarm

/-! ### Module constants (question_swarm.py) -/

def _MAX_OUTPUT_TOKENS : Nat := 8192

def DEFAULT_NUM_AGENTS : Nat := 6

def MAX_CONTROLS_PER_CALL : Nat := 20

def _TOKENS_PER_QUESTION : Nat := 100

/-- Embedding of `_effective_batch_size`:
`max(5, min(int(_MAX_OUTPUT_TOKENS * 0.75 / (questions_per_control * _TOKENS_PER_QUESTION)), MAX_CONTROLS_PER_CALL))`
with the float expression replaced by exact natural division (see header note). -/
def _effective_batch_size (questions_per_control : Nat) : Nat :=
  let max_controls := _MAX_OUTPUT_TOKENS * 3 / 4 / (questions_per_control * _TOKENS_PER_QUESTION)
  max 5 (min max_controls MAX_CONTROLS_PER_CALL)

/-- Embedding of `_dynamic_max_tokens`: raw = controls * (qpc * 100 + 200),
then `int(raw * 1.5)` clamped to `[1024, 8192]`. -/
def _dynamic_max_tokens (num_controls qpc : Nat) : Nat :=
  let overhead_per_control := 200
  let raw := num_controls * (qpc * _TOKENS_PER_QUESTION + overhead_per_control)
  let with_margin := raw * 3 / 2
  max 1024 (min with_margin _MAX_OUTPUT_TOKENS)

/-- Embedding of `_optimal_worker_count`. -/
def _optimal_worker_count (num_controls : Nat) : Nat :=
  if num_controls < 10 then 2
  else if num_controls < 30 then 3
  else if num_controls < 60 then 4
  else 6

/-! ### Round-robin distribution (`QuestionGenerationSwarm.distribute_controls`)

The Python loop appends control `i` to `buckets[i % num_agents]`.  We embed
the bucket-append operation and the enumeration loop directly. -/

/-- Append `a` at the end of bucket number `j` (Python `buckets[j].append(control)`). -/
def bucketAppend : List (List α) → Nat → α → List (List α)
  | [], _, _ => []
  | b :: bs, 0, a => (b ++ [a]) :: bs
  | b :: bs, j + 1, a => b :: bucketAppend bs j a

/-- Loop of `distribute_controls`: `i` is the running index of `enumerate`. -/
def distributeGo (k : Nat) : List (List α) → Nat → List α → List (List α)
  | buckets, _, [] => buckets
  | buckets, i, c :: cs => distributeGo k (bucketAppend buckets (i % k) c) (i + 1) cs

/-- Embedding of `QuestionGenerationSwarm.distribute_controls`. -/
def distribute_controls (controls : List α) (num_agents : Nat := DEFAULT_NUM_AGENTS) :
    List (List α) :=
  distributeGo num_agents (List.replicate num_agents []) 0 controls

/-- Count of indices `i < n` with `i % k = j`. -/
def countResidue (n k j : Nat) : Nat :=
  ((List.range n).filter (fun i => i % k = j)).length

/-! ### JSON values (results of Python `json.loads`)

The `json` standard library is external to the repository; it is modelled by
an executable parser over `List Char`.  Model restrictions (all on the side of
strictness or irrelevance for the claims at hand): numbers are decimal
integers (floats, exponents and leading-zero forms are rejected), the
`\uXXXX` string escape and the non-standard `NaN`/`Infinity` literals are
rejected, and object keys are kept as an ordered list with the last binding
winning on lookup (CPython dict semantics). -/

inductive Json where
  | null
  | bool (b : Bool)
  | num (n : Int)
  | str (s : String)
  | arr (elems : List Json)
  | obj (fields : List (String × Json))
deriving Repr, Inhabited

/-- Whitespace recognized between JSON tokens (matches CPython's `json`). -/
def isWsB (c : Char) : Bool :=
  c = ' ' || c = '\n' || c = '\t' || c = '\r'

def skipWs : List Char → List Char
  | [] => []
  | c :: cs => if isWsB c then skipWs cs else c :: cs

/-- Match a literal character sequence, returning the remainder. -/
def dropLiteral : List Char → List Char → Option (List Char)
  | [], cs => some cs
  | _ :: _, [] => none
  | p :: ps, c :: cs => if c = p then dropLiteral ps cs else none

def unescape (c : Char) : Option Char :=
  if c = '"' then some '"'
  else if c = '\\' then some '\\'
  else if c = '/' then some '/'
  else if c = 'n' then some '\n'
  else if c = 't' then some '\t'
  else if c = 'r' then some '\r'
  else none

/-- Worker for `parseStringBody`: the Bool records whether the previous
character was an unconsumed backslash. -/
def psbGo : Bool → List Char → Option (List Char × List Char)
  | _, [] => none
  | true, e :: cs =>
    match unescape e, psbGo false cs with
    | some u, some (s, r) => some (u :: s, r)
    | _, _ => none
  | false, c :: cs =>
    if c = '"' then some ([], cs)
    else if c = '\\' then psbGo true cs
    else if c.toNat < 32 then none
    else
      match psbGo false cs with
      | some (s, r) => some (c :: s, r)
      | none => none

/-- Parse the body of a JSON string after the opening quote; returns the
decoded characters and the remainder after the closing quote.  Raw control
characters are rejected, as in strict `json.loads`. -/
def parseStringBody (cs : List Char) : Option (List Char × List Char) :=
  psbGo false cs

def takeDigits : List Char → (List Char × List Char)
  | [] => ([], [])
  | c :: cs =>
    if c.isDigit then
      let (ds, r) := takeDigits cs
      (c :: ds, r)
    else ([], c :: cs)

def digitsToNat (ds : List Char) : Nat :=
  ds.foldl (fun a c => 10 * a + (c.toNat - 48)) 0

/-- True when the remainder would continue a number (fraction/exponent),
which the integer-only model rejects. -/
def startsFrac : List Char → Bool
  | [] => false
  | c :: _ => c = '.' || c = 'e' || c = 'E'

def parseNumber : List Char → Option (Json × List Char)
  | [] => none
  | c :: cs =>
    if c = '-' then
      match takeDigits cs with
      | ([], _) => none
      | (ds, r) => if startsFrac r then none else some (.num (-(digitsToNat ds : Int)), r)
    else
      match takeDigits (c :: cs) with
      | ([], _) => none
      | (ds, r) => if startsFrac r then none else some (.num (digitsToNat ds), r)

mutual

/-- Fuel-indexed JSON value parser (model of `json.loads`, see above). -/
def parseVal : Nat → List Char → Option (Json × List Char)
  | 0, _ => none
  | fuel + 1, input =>
    match skipWs input with
    | [] => none
    | c :: cs =>
      if c = '"' then
        match parseStringBody cs with
        | some (content, r) => some (.str (String.mk content), r)
        | none => none
      else if c = '[' then parseArrRest fuel cs
      else if c = '{' then parseObjRest fuel cs
      else if c = 'n' then
        match dropLiteral ['u', 'l', 'l'] cs with
        | some r => some (.null, r)
        | none => none
      else if c = 't' then
        match dropLiteral ['r', 'u', 'e'] cs with
        | some r => some (.bool true, r)
        | none => none
      else if c = 'f' then
        match dropLiteral ['a', 'l', 's', 'e'] cs with
        | some r => some (.bool false, r)
        | none => none
      else parseNumber (c :: cs)

/-- Parse the remainder of an array after the opening bracket. -/
def parseArrRest : Nat → List Char → Option (Json × List Char)
  | 0, _ => none
  | fuel + 1, input =>
    let s := skipWs input
    match s with
    | ']' :: r => some (.arr [], r)
    | _ =>
      match parseElems fuel s with
      | some (es, r) => some (.arr es, r)
      | none => none

/-- Parse one or more comma-separated array elements up to the closing bracket. -/
def parseElems : Nat → List Char → Option (List Json × List Char)
  | 0, _ => none
  | fuel + 1, input =>
    match parseVal fuel input with
    | some (v, r) =>
      match skipWs r with
      | ',' :: r2 =>
        match parseElems fuel r2 with
        | some (es, r3) => some (v :: es, r3)
        | none => none
      | ']' :: r2 => some ([v], r2)
      | _ => none
    | none => none

/-- Parse the remainder of an object after the opening brace. -/
def parseObjRest : Nat → List Char → Option (Json × List Char)
  | 0, _ => none
  | fuel + 1, input =>
    let s := skipWs input
    match s with
    | '}' :: r => some (.obj [], r)
    | _ =>
      match parseFields fuel s with
      | some (fs, r) => some (.obj fs, r)
      | none => none

/-- Parse one or more comma-separated `"key": value` members up to the
closing brace. -/
def parseFields : Nat → List Char → Option (List (String × Json) × List Char)
  | 0, _ => none
  | fuel + 1, input =>
    match skipWs input with
    | '"' :: cs =>
      match parseStringBody cs with
      | some (key, r) =>
        match skipWs r with
        | ':' :: r2 =>
          match parseVal fuel r2 with
          | some (v, r3) =>
            match skipWs r3 with
            | ',' :: r4 =>
              match parseFields fuel r4 with
              | some (fs, r5) => some ((String.mk key, v) :: fs, r5)
              | none => none
            | '}' :: r4 => some ([(String.mk key, v)], r4)
            | _ => none
          | none => none
        | _ => none
      | none => none
    | _ => none

end

/-- Model of `json.loads` on a character list: parse one value, then require
only trailing whitespace.  The fuel `3 * length + 1` dominates the parser's
fuel consumption (at most three recursive entries per consumed character). -/
def jsonParse (cs : List Char) : Option Json :=
  match parseVal (3 * cs.length + 1) cs with
  | some (v, rest) => if skipWs rest = [] then some v else none
  | none => none

/-! ### String searching primitives (Python `str.find` / `str.rfind`) -/

/-- First index at which `sub` occurs in the list (Python `s.find(sub)`,
with `none` for `-1`). -/
def findSub (sub : List Char) : List Char → Option Nat
  | [] => if sub.isPrefixOf ([] : List Char) then some 0 else none
  | c :: t =>
    if sub.isPrefixOf (c :: t) then some 0
    else (findSub sub t).map (· + 1)

/-- Last index at which `sub` occurs in the list (Python `s.rfind(sub)`,
with `none` for `-1`). -/
def rfindSub (sub : List Char) : List Char → Option Nat
  | [] => if sub.isPrefixOf ([] : List Char) then some 0 else none
  | c :: t =>
    match rfindSub sub t with
    | some p => some (p + 1)
    | none => if sub.isPrefixOf (c :: t) then some 0 else none

/-! ### `_extract_json_array` -/

/-- Strip leading and trailing whitespace (Python `str.strip()`). -/
def stripWs (cs : List Char) : List Char :=
  ((cs.dropWhile isWsB).reverse.dropWhile isWsB).reverse

/-- Triple-backtick fence delimiter. -/
def fenceTicks : List Char := "```".data

/-- Case-insensitive literal match (for the `(?:json)?` part of the fence
regex compiled with `re.IGNORECASE`). -/
def matchCI : List Char → List Char → Option (List Char)
  | [], cs => some cs
  | _ :: _, [] => none
  | p :: ps, c :: cs => if c.toLower = p.toLower then matchCI ps cs else none

/-- Lazy body of the fence regex `(\[[\s\S]*?\])\s*` followed by the closing
fence: scan for the earliest closing bracket after which optional whitespace
is followed by three backticks.  `acc` holds the group seen so far, reversed. -/
def fenceBody (acc : List Char) : List Char → Option (List Char)
  | [] => none
  | c :: cs =>
    if c = ']' then
      match dropLiteral fenceTicks (cs.dropWhile isWsB) with
      | some _ => some ((']' :: acc).reverse)
      | none => fenceBody (']' :: acc) cs
    else fenceBody (c :: acc) cs

/-- Attempt the `\s*(\[...\])\s*`(fence) part of the regex at a fixed start. -/
def fenceAttempt (r : List Char) : Option (List Char) :=
  match r.dropWhile isWsB with
  | '[' :: r2 => fenceBody ['['] r2
  | _ => none

/-- Model of `re.search(r"```(?:json)?\s*(\[[\s\S]*?\])\s*```", text, re.IGNORECASE)`:
scan for the leftmost start of a match, trying the greedy `(?:json)?` option
first, returning the bracketed group. -/
def fenceSearch : List Char → Option (List Char)
  | [] => none
  | c :: cs =>
    match
      (match dropLiteral fenceTicks (c :: cs) with
       | some r0 =>
         (match matchCI "json".data r0 with
          | some r1 =>
            (match fenceAttempt r1 with
             | some g => some g
             | none => fenceAttempt r0)
          | none => fenceAttempt r0)
       | none => none)
    with
    | some g => some g
    | none => fenceSearch cs

/-- Bracket-depth scan of `_extract_json_array`: walk the characters from the
first `[`, tracking raw bracket depth (string contents are not skipped, as in
the source), returning the index where depth returns to zero. -/
def bracketScanGo : List Char → Int → Nat → Option Nat
  | [], _, _ => none
  | c :: cs, depth, i =>
    if c = '[' then bracketScanGo cs (depth + 1) (i + 1)
    else if c = ']' then
      if depth - 1 = 0 then some i else bracketScanGo cs (depth - 1) (i + 1)
    else bracketScanGo cs depth (i + 1)

/-- Embedding of `_extract_json_array` over character lists. -/
def extractJsonArray (text : List Char) : Option (List Char) :=
  let t := stripWs text
  match fenceSearch t with
  | some g => some g
  | none =>
    match findSub ['['] t with
    | none => none
    | some start =>
      let sub := t.drop start
      match bracketScanGo sub 0 0 with
      | some i => some (sub.take (i + 1))
      | none =>
        match rfindSub [']'] t with
        | some e => if start < e then some ((t.drop start).take (e - start + 1)) else none
        | none => none

/-- Embedding of `_extract_json_array` on `String`. -/
def _extract_json_array (s : String) : Option String :=
  (extractJsonArray s.data).map String.mk

/-! ### `_try_repair_truncated_json` -/

/-- Candidate built by truncating after position `p` and closing the array. -/
def repairCandidate (s : List Char) (p : Nat) : List Char :=
  s.take (p + 1) ++ [']']

/-- Strategy 1: truncate at the last complete object boundary. -/
def repairStrat1 (s : List Char) : Option (List Char) :=
  match rfindSub ['}', ','] s with
  | some p =>
    let candidate := repairCandidate s p
    if (jsonParse candidate).isSome then some candidate else none
  | none => none

/-- Strategy 2: close the array after the last closing brace, provided it
comes after the opening bracket. -/
def repairStrat2 (s : List Char) : Option (List Char) :=
  match rfindSub ['}'] s with
  | some lastBrace =>
    match findSub ['['] s with
    | some bracket =>
      if bracket < lastBrace then
        let candidate := repairCandidate s lastBrace
        if (jsonParse candidate).isSome then some candidate else none
      else none
    | none => none
  | none => none

/-- Strategy 3 loop: walk backwards through successive object boundaries,
capped at the given number of iterations; `rfindSub` on `s.take bound`
models Python `s.rfind("},", 0, bound)`. -/
def repairStrat3Go (s : List Char) : Nat → Nat → Option (List Char)
  | 0, _ => none
  | iter + 1, bound =>
    match rfindSub ['}', ','] (s.take bound) with
    | none => none
    | some pos =>
      let candidate := repairCandidate s pos
      if (jsonParse candidate).isSome then some candidate
      else repairStrat3Go s iter pos

def repairStrat3 (s : List Char) : Option (List Char) :=
  repairStrat3Go s 20 s.length

/-- Embedding of `_try_repair_truncated_json` over character lists: the three
strategies in order, each validated by a real parse. -/
def tryRepairTruncatedJson (s : List Char) : Option (List Char) :=
  match repairStrat1 s with
  | some c => some c
  | none =>
    match repairStrat2 s with
    | some c => some c
    | none => repairStrat3 s

/-- Embedding of `_try_repair_truncated_json` on `String`. -/
def _try_repair_truncated_json (s : String) : Option String :=
  (tryRepairTruncatedJson s.data).map String.mk

/-! ### The Python object-mapping layer of `_parse_questions`

The loop over the decoded JSON value uses Python attribute/iteration
semantics: `.get` on a non-dict raises `AttributeError`, iterating a
non-iterable raises `TypeError` (iterating a string yields its characters,
iterating a dict yields its keys), and the pydantic model constructors
raise a validation error when a field value has the wrong type.  Exceptions
are modelled with `Except PyErr`. -/

inductive PyErr where
  | attributeError
  | typeError
  | validationError
deriving Repr, DecidableEq

/-- CPython dict lookup on the ordered field list: the last binding wins. -/
def lookupKey (fields : List (String × Json)) (key : String) : Option Json :=
  fields.foldl (fun acc kv => if kv.1 = key then some kv.2 else acc) none

/-- Python `obj.get(key, default)`; raises `AttributeError` on non-dicts. -/
def dictGet (j : Json) (key : String) (default : Json) : Except PyErr Json :=
  match j with
  | .obj fields => .ok ((lookupKey fields key).getD default)
  | _ => .error .attributeError

/-- Python iteration over a decoded JSON value. -/
def pyIter (j : Json) : Except PyErr (List Json) :=
  match j with
  | .arr es => .ok es
  | .str s => .ok (s.data.map (fun c => Json.str (String.mk [c])))
  | .obj fs => .ok (fs.map (fun kv => Json.str kv.1))
  | _ => .error .typeError

/-- Pydantic validation of a `str` field. -/
def asStr : Json → Except PyErr String
  | .str s => .ok s
  | _ => .error .validationError

/-- Pydantic validation of an `Optional[str]` field. -/
def asOptStr : Json → Except PyErr (Option String)
  | .str s => .ok (some s)
  | .null => .ok none
  | _ => .error .validationError

/-- Model of `app.models.questionnaire.GeneratedQuestion`. -/
structure GeneratedQuestion where
  id : String
  question : String
  category : String
  priority : String
  expected_evidence : Option String := none
  guidance_notes : Option String := none
deriving Repr, DecidableEq, Inhabited

/-- Model of `app.models.questionnaire.ControlQuestions`. -/
structure ControlQuestions where
  control_id : String
  control_title : String
  framework : String
  questions : List GeneratedQuestion
deriving Repr, DecidableEq, Inhabited

/-- One `GeneratedQuestion(...)` construction from a parsed question object:
the `.get` defaults are those of the source (`fresh` stands for the
`f"q-{uuid.uuid4().hex[:8]}"` value generated for this question), and the
pydantic field validations follow. -/
def mkGeneratedQuestion (fresh : String) (q : Json) : Except PyErr GeneratedQuestion := do
  let idJ ← dictGet q "id" (.str fresh)
  let questionJ ← dictGet q "question" (.str "")
  let categoryJ ← dictGet q "category" (.str "general")
  let priorityJ ← dictGet q "priority" (.str "medium")
  let eeJ ← dictGet q "expected_evidence" .null
  let gnJ ← dictGet q "guidance_notes" .null
  let id ← asStr idJ
  let question ← asStr questionJ
  let category ← asStr categoryJ
  let priority ← asStr priorityJ
  let ee ← asOptStr eeJ
  let gn ← asOptStr gnJ
  return ⟨id, question, category, priority, ee, gn⟩

/-- Inner loop of `_parse_questions` over a control's question objects.
The second component threads the index used for fresh identifiers. -/
def buildQuestionsGo (fresh : Nat → String) :
    List Json → Nat → Except PyErr (List GeneratedQuestion × Nat)
  | [], idx => .ok ([], idx)
  | q :: qs, idx => do
    let g ← mkGeneratedQuestion (fresh idx) q
    let (gs, idx') ← buildQuestionsGo fresh qs (idx + 1)
    return (g :: gs, idx')

/-- Outer loop of `_parse_questions` over the decoded array's items. -/
def buildControlsGo (fresh : Nat → String) :
    List Json → Nat → Except PyErr (List ControlQuestions)
  | [], _ => .ok []
  | item :: items, idx => do
    let qsJ ← dictGet item "questions" (.arr [])
    let qList ← pyIter qsJ
    let (questions, idx') ← buildQuestionsGo fresh qList idx
    let cidJ ← dictGet item "control_id" (.str "")
    let ctJ ← dictGet item "control_title" (.str "")
    let fwJ ← dictGet item "framework" (.str "")
    let control_id ← asStr cidJ
    let control_title ← asStr ctJ
    let framework ← asStr fwJ
    let rest ← buildControlsGo fresh items idx'
    return ⟨control_id, control_title, framework, questions⟩ :: rest

/-- Embedding of `_parse_questions(text, session_id)`.  The `session_id`
argument is used only for logging in the source and is dropped; `fresh`
supplies the per-question `uuid` identifiers. -/
def _parse_questions (fresh : Nat → String) (text : String) :
    Except PyErr (List ControlQuestions) :=
  match extractJsonArray text.data with
  | none => .ok []
  | some js =>
    match jsonParse js with
    | some raw => do
        let items ← pyIter raw
        buildControlsGo fresh items 0
    | none =>
      match tryRepairTruncatedJson js with
      | some rep =>
        match jsonParse rep with
        | some raw => do
            let items ← pyIter raw
            buildControlsGo fresh items 0
        | none => .ok []
      | none => .ok []

/-! ### `_validate_and_trim_questions` -/

/-- Python `str.split()` with no arguments: split on whitespace runs,
dropping empty fields. -/
def pySplitGo : List Char → List Char → List (List Char)
  | cur, [] => if cur.isEmpty then [] else [cur.reverse]
  | cur, c :: cs =>
    if isWsB c then
      if cur.isEmpty then pySplitGo [] cs
      else cur.reverse :: pySplitGo [] cs
    else pySplitGo (c :: cur) cs

def pySplit (s : String) : List String :=
  (pySplitGo [] s.data).map String.mk

/-- Per-question step of `_validate_and_trim_questions`: truncate questions
above 50 words (appending `?`), strip non-empty `guidance_notes`, and trim
`expected_evidence` above 8 words.  Python truthiness makes `None` and the
empty string both skip the latter two branches. -/
def trimQuestion (q : GeneratedQuestion) : GeneratedQuestion :=
  let words := pySplit q.question
  let q1 :=
    if words.length > 50 then
      { q with question := String.intercalate " " (words.take 50) ++ "?" }
    else q
  let q2 :=
    match q1.guidance_notes with
    | some s => if s ≠ "" then { q1 with guidance_notes := none } else q1
    | none => q1
  match q2.expected_evidence with
  | some s =>
    if s ≠ "" then
      let ev := pySplit s
      if ev.length > 8 then
        { q2 with expected_evidence := some (String.intercalate " " (ev.take 8)) }
      else q2
    else q2
  | none => q2

/-- Embedding of `_validate_and_trim_questions` (the source mutates the
controls in place and returns the same list). -/
def _validate_and_trim_questions (controls : List ControlQuestions) :
    List ControlQuestions :=
  controls.map (fun c => { c with questions := c.questions.map trimQuestion })

/-- Concrete stand-in for the `uuid` fresh-identifier stream in closed
statements. -/
def defaultFresh : Nat → String := fun k => "q-" ++ toString k

/-- Value actually mapped by `_parse_questions`: the extracted candidate
decoded directly, or after repair. -/
def decodedArray (text : String) : Option Json :=
  match extractJsonArray text.data with
  | none => none
  | some js =>
    match jsonParse js with
    | some raw => some raw
    | none =>
      match tryRepairTruncatedJson js with
      | some rep => jsonParse rep
      | none => none

/-- Key absent, or present with a `str` value (so the pydantic `str` field
validation cannot fail). -/
def fieldOkStr (fields : List (String × Json)) (key : String) : Bool :=
  match lookupKey fields key with
  | some (.str _) => true
  | some _ => false
  | none => true

/-- Key absent, or present with a `str` or `null` value (for the pydantic
`Optional[str]` fields). -/
def fieldOkOptStr (fields : List (String × Json)) (key : String) : Bool :=
  match lookupKey fields key with
  | some (.str _) => true
  | some .null => true
  | some _ => false
  | none => true

/-- A question object on which the `GeneratedQuestion(...)` construction in
`_parse_questions` cannot raise: a JSON object whose relevant fields, when
present, carry values of the expected type. -/
def wellShapedQuestion : Json → Bool
  | .obj qf =>
    fieldOkStr qf "id" && fieldOkStr qf "question" && fieldOkStr qf "category" &&
      fieldOkStr qf "priority" && fieldOkOptStr qf "expected_evidence" &&
      fieldOkOptStr qf "guidance_notes"
  | _ => false

/-- A `questions` entry on which the inner loop cannot raise: absent
(defaulted to an empty list) or an array of well-shaped question objects. -/
def questionsFieldOk (fields : List (String × Json)) : Bool :=
  match lookupKey fields "questions" with
  | some (.arr qs) => qs.all wellShapedQuestion
  | some _ => false
  | none => true

/-- An item of the decoded array on which `_parse_questions`'s loop cannot
raise. -/
def wellShapedItem : Json → Bool
  | .obj fields =>
    questionsFieldOk fields && fieldOkStr fields "control_id" &&
      fieldOkStr fields "control_title" && fieldOkStr fields "framework"
  | _ => false

/-! ### Prompt builders (question_swarm_prompts.py) -/

/-- Keys of the `context` dict read by `build_shared_context`. -/
structure Context where
  organization_name : Option String := none
  industry : Option String := none
deriving Repr, DecidableEq, Inhabited

/-- Keys of the `criteria` dict read by `generate`/`generate_stream`; `none`
models an absent key (the source falls back to `.get` defaults). -/
structure Criteria where
  maturity_level : Option String := none
  question_depth : Option String := none
  priority_domains : Option (List String) := none
  compliance_concerns : Option String := none
  controls_to_skip : Option String := none
  questions_per_control : Option Nat := none
deriving Repr, DecidableEq, Inhabited

/-- Python `s.replace('_', ' ')` for single characters. -/
def replaceUnderscores (s : String) : String :=
  String.mk (s.data.map (fun c => if c = '_' then ' ' else c))

def pyTitleGo : Bool → List Char → List Char
  | _, [] => []
  | prevAlpha, c :: cs =>
    if c.isAlpha then
      (if prevAlpha then c.toLower else c.toUpper) :: pyTitleGo true cs
    else c :: pyTitleGo false cs

/-- Python `str.title()`: uppercase each alphabetic character that follows a
non-alphabetic one, lowercase the rest. -/
def pyTitle (s : String) : String := String.mk (pyTitleGo false s.data)

def maturityFirstTime : String :=
  "Organization is establishing its ISMS. Probe governance foundations: risk ownership and accountability structures, policy approval chains, asset inventory completeness, and initial risk assessment methodology. Ask how controls were selected and what gaps were identified during scoping. Still use professional tone — avoid simplistic \x27do you have\x27 questions."

def maturityRecurring : String :=
  "Organization has an established ISMS. Probe operational effectiveness: control testing evidence and exception handling, incident response lessons learned, metrics-driven validation of control performance, management review outputs, and corrective action closure rates. Ask for trend data and root cause analysis."

def maturityMature : String :=
  "Organization has a mature ISMS. Probe optimization and strategic integration: benchmarking against industry peers, automation ROI on compliance processes, threat-informed defense prioritization, integration with enterprise risk management and business continuity, board-level risk reporting, and how the ISMS drives competitive advantage."

/-- Embedding of `build_shared_context`: a pure function of the two context
keys it reads and the criteria-derived keyword arguments, transcribing the
f-string template (brace characters written as escapes). -/
def build_shared_context (context : Context) (maturity_level question_depth : String)
    (priority_domains : Option (List String) := none)
    (compliance_concerns : Option String := none)
    (controls_to_skip : Option String := none)
    (questions_per_control : Option Nat := none) : String :=
  let org_name := context.organization_name.getD "the organization"
  let industry := context.industry.getD "unspecified"
  let q_count :=
    if questions_per_control.getD 0 ≠ 0 then
      toString (questions_per_control.getD 0) ++ " questions per control"
    else if question_depth = "high_level_overview" then "2 questions per control"
    else if question_depth = "balanced" then "3 questions per control"
    else if question_depth = "detailed_technical" then "4-5 questions per control"
    else "3 questions per control"
  let maturity_guidance :=
    if maturity_level = "first_time_audit" then maturityFirstTime
    else if maturity_level = "recurring_assessment" then maturityRecurring
    else if maturity_level = "mature_isms" then maturityMature
    else maturityRecurring
  let priority_section :=
    match priority_domains with
    | some ds =>
      if ds ≠ [] then
        "\n\n## Priority Focus Areas\nMore detailed questions for: " ++
          String.intercalate ", " ds ++ "."
      else ""
    | none => ""
  let concerns_section :=
    match compliance_concerns with
    | some s => if s ≠ "" then "\n\n## Compliance Concerns\nAddress these gaps: " ++ s else ""
    | none => ""
  let skip_section :=
    match controls_to_skip with
    | some s =>
      if s ≠ "" then "\n\n## De-emphasized Controls\n1 basic question for: " ++ s ++ "."
      else ""
    | none => ""
  let maturityTitle := pyTitle (replaceUnderscores maturity_level)
  "You are a senior GRC professional with 20+ years of audit experience across regulated industries. You write questions that probe implementation depth, demand evidence of real practice, and expose gaps that checklist audits miss. You use precise domain terminology naturally.\n" ++
    "\nOrganization: " ++
    org_name ++
    " (" ++
    industry ++
    ")\nMaturity: " ++
    maturityTitle ++
    "\nDepth: " ++
    q_count ++
    "\n\n## Question Craft — Professional Audit Technique\n" ++
    "1. MAX 45 WORDS per question — concise but substantive\n" ++
    "2. ONE sentence, ONE control aspect per question — never combine topics\n" ++
    "3. Use precise GRC terminology (" ++
    industry ++
    "-appropriate where possible)\n4. Specific to " ++
    org_name ++
    " where possible\n\n## Question Styles (vary across these)\n" ++
    "- **Scenario-based**: \"Walk me through...\", \"Describe what happens when...\", \"How did your last...\"\n" ++
    "- **Evidence-probing**: \"What evidence demonstrates...\", \"Show me how you validate...\", \"What artifacts confirm...\"\n" ++
    "- **Implementation-depth**: \"How do you reconcile...\", \"What is the handoff between...\", \"How does [X] integrate with...\"\n" ++
    "- **Failure-mode**: \"When was the last time [control] failed, and how was it escalated?\", \"What happens if...\"\n" ++
    "- **Effectiveness**: \"How do you measure whether...\", \"What metrics indicate...\", \"What was the trend in...\"\n" ++
    "\n## Examples\n\nGOOD (senior GRC voice):\nControl: \"Access Control Policy\"\n" ++
    "✓ \"Walk me through how a contractor\x27s access is provisioned on day one and fully revoked upon engagement termination.\" → evidence: \"Provisioning workflow, offboarding logs\"\n" ++
    "✓ \"How do you reconcile access entitlements across HR systems, IAM platforms, and downstream applications during role transfers?\" → evidence: \"Reconciliation reports, IAM logs\"\n" ++
    "✓ \"What was the exception rate in your last access certification cycle, and how were exceptions resolved?\" → evidence: \"Certification results, exception tracker\"\n" ++
    "\nBAD (junior checklist — avoid these patterns):\n" ++
    "✗ \"Do you have a documented access control policy?\" (existence check — no depth)\n" ++
    "✗ \"Are access reviews conducted regularly?\" (vague, yes/no)\n" ++
    "✗ \"Is there a process for revoking access?\" (binary, no implementation detail)\n\n" ++
    "Guidance: " ++
    maturity_guidance ++
    priority_section ++
    concerns_section ++
    skip_section ++
    "\n\n## JSON Output (ONLY this format)\n[\n  \x7b\n    \"control_id\": \"ID\",\n" ++
    "    \"control_title\": \"Title\",\n    \"framework\": \"Framework Name\",\n" ++
    "    \"questions\": [\n      \x7b\n        \"id\": \"q-<unique-id>\",\n" ++
    "        \"question\": \"Professional audit question under 45 words\",\n" ++
    "        \"category\": \"policy_existence|implementation|monitoring|effectiveness|documentation\",\n" ++
    "        \"priority\": \"high|medium|low\",\n" ++
    "        \"expected_evidence\": \"2-6 word evidence tag, e.g. Reconciliation reports, Incident post-mortems, Board risk minutes\"\n" ++
    "      \x7d\n    ]\n  \x7d\n]"

/-- Embedding of `build_controls_section`. -/
def build_controls_section (batch_controls_text : String) : String :=
  "## Controls to Process\n" ++ batch_controls_text

/-- Shape of one control dict as consumed by `format_batch_controls` (the
source indexes `id`/`framework`/`title`/`desc` and `.get`s `section_title`). -/
structure Control where
  id : String
  title : String
  framework : String
  desc : String
  section_title : Option String := none
deriving Repr, DecidableEq, Inhabited

/-- Embedding of `format_batch_controls`. -/
def format_batch_controls (batch : List Control) : String :=
  String.intercalate "\n" (batch.map (fun c =>
    let section_ctx :=
      match c.section_title with
      | some s => if s ≠ "" then " (" ++ s ++ ")" else ""
      | none => ""
    "- **" ++ c.id ++ "** [" ++ c.framework ++ "]" ++ section_ctx ++ ": " ++
      c.title ++ " — " ++ c.desc))

/-! ### Worker agent (`WorkerAgent.generate`)

The Anthropic client is external: a call to `_call_api` (including its
retry policy, which re-raises the final error) is modelled by an oracle
`api : Nat → Except String (String × Usage)` giving, per sub-batch index,
either the exception text or the response text and usage counters.  The
per-question `uuid` identifiers are likewise an oracle.  Each call's prompt
parts are recorded in a transcript for the caching claims. -/

/-- Usage counters of one API response. -/
structure Usage where
  input_tokens : Nat := 0
  output_tokens : Nat := 0
  cache_read_input_tokens : Nat := 0
deriving Repr, DecidableEq, Inhabited

/-- Model of the `AgentStats` dataclass. -/
structure AgentStats where
  agent_id : Nat
  controls_assigned : Nat := 0
  controls_generated : Nat := 0
  questions_generated : Nat := 0
  input_tokens : Nat := 0
  cache_read_tokens : Nat := 0
  output_tokens : Nat := 0
  error : Option String := none
deriving Repr, DecidableEq, Inhabited

/-- Model of the `SwarmResult` dataclass. -/
structure SwarmResult where
  controls : List ControlQuestions := []
  agent_stats : List AgentStats := []
  total_input_tokens : Nat := 0
  total_cache_read_tokens : Nat := 0
  total_output_tokens : Nat := 0
deriving Repr, DecidableEq, Inhabited

/-- Transcript of one `_call_api` invocation: the two system blocks (the
cacheable shared context and the per-worker controls section are separate
strings, as in the source) and the computed `max_tokens`. -/
structure ApiCall where
  shared_context : String
  controls_section : String
  max_tokens : Nat
deriving Repr, DecidableEq, Inhabited

/-- Display of a caught `PyErr` (Python `str(e)`, kept abstract). -/
def pyErrStr : PyErr → String
  | .attributeError => "AttributeError"
  | .typeError => "TypeError"
  | .validationError => "ValidationError"

/-- The sub-batch chunking `[controls[i:i+size] for i in range(0, len, size)]`
(fuel-driven; `size` is always at least 5 at call sites). -/
def chunkGo : Nat → Nat → List α → List (List α)
  | 0, _, _ => []
  | _, _, [] => []
  | fuel + 1, size, l => l.take size :: chunkGo fuel size (l.drop size)

def chunkList (size : Nat) (l : List α) : List (List α) :=
  chunkGo l.length size l

/-- The `sub_batches` computation in `WorkerAgent.generate`. -/
def sub_batches (controls : List α) (batch_size : Nat) : List (List α) :=
  if batch_size < controls.length then chunkList batch_size controls else [controls]

/-- Mutable state of the worker's sub-batch loop. -/
structure WorkerState where
  gen : List ControlQuestions
  stats : AgentStats
  calls : List ApiCall
deriving Repr, Inhabited

/-- Body of the worker's per-sub-batch loop (the `try`/`except` around the
API call and parsing: an exception from either records `stats.error` and
continues with the next sub-batch). -/
def worker_process_batch (shared_context : String) (questions_per_control : Nat)
    (api_result : Except String (String × Usage)) (fresh1 : Nat → String)
    (sub_batch : List Control) (st : WorkerState) : WorkerState :=
  let batch_text := format_batch_controls sub_batch
  let controls_section := build_controls_section batch_text
  let call : ApiCall :=
    ⟨shared_context, controls_section, _dynamic_max_tokens sub_batch.length questions_per_control⟩
  match api_result with
  | .error e =>
    { st with stats := { st.stats with error := some e }, calls := st.calls ++ [call] }
  | .ok (text, usage) =>
    let stats :=
      { st.stats with
        input_tokens := st.stats.input_tokens + usage.input_tokens
        cache_read_tokens := st.stats.cache_read_tokens + usage.cache_read_input_tokens
        output_tokens := st.stats.output_tokens + usage.output_tokens }
    match _parse_questions fresh1 text with
    | .error e =>
      { gen := st.gen, stats := { stats with error := some (pyErrStr e) },
        calls := st.calls ++ [call] }
    | .ok parsed =>
      let trimmed := _validate_and_trim_questions parsed
      let batch_q := (trimmed.map (fun c => c.questions.length)).sum
      { gen := st.gen ++ trimmed,
        stats :=
          { stats with
            controls_generated := stats.controls_generated + trimmed.length
            questions_generated := stats.questions_generated + batch_q },
        calls := st.calls ++ [call] }

/-- Embedding of `WorkerAgent.generate` (the `on_progress` callback has no
effect on the returned data and is dropped): returns the generated controls,
the final stats, and the API-call transcript. -/
def worker_generate (agent_id : Nat) (controls : List Control) (shared_context : String)
    (questions_per_control : Nat) (api : Nat → Except String (String × Usage))
    (fresh2 : Nat → Nat → String) :
    List ControlQuestions × AgentStats × List ApiCall :=
  let stats0 : AgentStats := { agent_id := agent_id, controls_assigned := controls.length }
  if controls.isEmpty then ([], stats0, [])
  else
    let batch_size := _effective_batch_size questions_per_control
    let batches := sub_batches controls batch_size
    let final := (batches.enum).foldl
      (fun st p => worker_process_batch shared_context questions_per_control
        (api p.1) (fresh2 p.1) p.2 st)
      ⟨[], stats0, []⟩
    (final.gen, final.stats, final.calls)

/-! ### Swarm coordinator (`QuestionGenerationSwarm.generate`) -/

/-- Workers actually launched: `min(_optimal_worker_count(len(controls)), self._num_agents)`. -/
def effective_agents (num_controls num_agents : Nat) : Nat :=
  min (_optimal_worker_count num_controls) num_agents

/-- Aggregation loop of `generate` over the gathered per-worker results (the
`isinstance(result, Exception)` branch is unreachable in the model because
`worker_generate` is total; every worker exception surfaces inside the
worker's own `try`/`except` as `stats.error`). -/
def aggregateStep (acc : SwarmResult)
    (r : List ControlQuestions × AgentStats × List ApiCall) : SwarmResult :=
  { controls := acc.controls ++ r.1
    agent_stats := acc.agent_stats ++ [r.2.1]
    total_input_tokens := acc.total_input_tokens + r.2.1.input_tokens
    total_cache_read_tokens := acc.total_cache_read_tokens + r.2.1.cache_read_tokens
    total_output_tokens := acc.total_output_tokens + r.2.1.output_tokens }

def aggregate (results : List (List ControlQuestions × AgentStats × List ApiCall)) :
    SwarmResult :=
  results.foldl aggregateStep {}

/-- The per-worker results of one swarm invocation, in `agent_id` order. -/
def swarm_worker_results (controls : List Control) (context : Context) (criteria : Criteria)
    (num_agents : Nat) (api : Nat → Nat → Except String (String × Usage))
    (fresh3 : Nat → Nat → Nat → String) :
    List (List ControlQuestions × AgentStats × List ApiCall) :=
  let effective := effective_agents controls.length num_agents
  let buckets := distribute_controls controls effective
  let shared_context := build_shared_context context
    (criteria.maturity_level.getD "recurring_assessment")
    (criteria.question_depth.getD "balanced")
    criteria.priority_domains criteria.compliance_concerns criteria.controls_to_skip
    criteria.questions_per_control
  let qpc := criteria.questions_per_control.getD 3
  (List.range effective).map (fun i =>
    worker_generate i (buckets.getD i []) shared_context qpc (api i) (fresh3 i))

/-- Embedding of `QuestionGenerationSwarm.generate` (batch mode): run every
worker on its round-robin bucket with the shared context built once, then
aggregate in worker order.  Also returns the per-worker API transcripts. -/
def generate (controls : List Control) (context : Context) (criteria : Criteria)
    (num_agents : Nat) (api : Nat → Nat → Except String (String × Usage))
    (fresh3 : Nat → Nat → Nat → String) : SwarmResult × List (List ApiCall) :=
  let results := swarm_worker_results controls context criteria num_agents api fresh3
  (aggregate results, results.map (fun r => r.2.2))

/-! ### Streaming coordinator (`QuestionGenerationSwarm.generate_stream`)

The completion queue is modelled by the explicit arrival list: the workers
run as above, and `order` gives the sequence of agent indices taken from the
queue; an exhausted arrival list before all workers have reported models the
90-second `asyncio.TimeoutError` wait expiry. -/

/-- One completion taken from the progress queue. -/
structure Arrival where
  agent_id : Nat
  generated : List ControlQuestions
  stats : AgentStats
deriving Repr, Inhabited

/-- Structured form of the SSE events emitted by `generate_stream` (the
`_sse` wire framing serializes these as `event: <name>\ndata: <json>\n\n`). -/
inductive SseEvent where
  | progress (batch total controls_done total_controls : Nat) (agent_id : Option Nat)
      (agents_complete total_agents : Nat)
  | agent_complete (agent_id : Nat) (controls_generated questions_generated : Nat)
      (controls : List ControlQuestions)
  | error (msg : String)
deriving Repr, DecidableEq, Inhabited

/-- Embedding of `_sse` (the JSON payload itself is left to the caller). -/
def _sse (event : String) (data : String) : String :=
  "event: " ++ event ++ "\ndata: " ++ data ++ "\n\n"

/-- The `while agents_done < effective_agents` drain loop of
`generate_stream`: each arrival emits an `agent_complete` then a cumulative
`progress`; an empty queue before completion emits the fatal `error` event
and ends the stream at once. -/
def streamGo (effective total_controls : Nat) :
    List Arrival → Nat → Nat → List SseEvent
  | arrivals, agents_done, controls_done =>
    if agents_done < effective then
      match arrivals with
      | [] => [.error "Agent timed out after 90s"]
      | a :: rest =>
        .agent_complete a.agent_id a.stats.controls_generated
            a.stats.questions_generated a.generated ::
        .progress (agents_done + 1) effective
            (controls_done + a.stats.controls_generated) total_controls
            (some a.agent_id) (agents_done + 1) effective ::
        streamGo effective total_controls rest (agents_done + 1)
          (controls_done + a.stats.controls_generated)
    else []

/-- The completions put on the progress queue, in arrival order: `order`
lists the agent indices in the order the coordinator takes them from the
queue (a truncated order models the 90s timeout expiring). -/
def stream_arrivals (controls : List Control) (context : Context) (criteria : Criteria)
    (num_agents : Nat) (api : Nat → Nat → Except String (String × Usage))
    (fresh3 : Nat → Nat → Nat → String) (order : List Nat) : List Arrival :=
  let results := swarm_worker_results controls context criteria num_agents api fresh3
  order.map (fun i =>
    let r := (results.getD i ([], { agent_id := i }, []))
    Arrival.mk i r.1 r.2.1)

/-- Embedding of `generate_stream`: the initial zero-totals progress event
followed by the drain loop over the worker completions in arrival order. -/
def generate_stream_events (controls : List Control) (context : Context)
    (criteria : Criteria) (num_agents : Nat)
    (api : Nat → Nat → Except String (String × Usage))
    (fresh3 : Nat → Nat → Nat → String) (order : List Nat) : List SseEvent :=
  .progress 0 (effective_agents controls.length num_agents) 0 controls.length none 0
      (effective_agents controls.length num_agents) ::
    streamGo (effective_agents controls.length num_agents) controls.length
      (stream_arrivals controls context criteria num_agents api fresh3 order) 0 0

/-- Specification-side event shape: each arrival contributes exactly one
`agent_complete` event carrying that worker\x27s generated controls and stats,
immediately followed by one `progress` event carrying the cumulative totals
so far (`done` completions, `cdone` controls before this arrival). -/
def eventPairs (effective total : Nat) : List Arrival → Nat → Nat → List SseEvent
  | [], _, _ => []
  | a :: rest, done, cdone =>
    .agent_complete a.agent_id a.stats.controls_generated
        a.stats.questions_generated a.generated ::
    .progress (done + 1) effective (cdone + a.stats.controls_generated) total
        (some a.agent_id) (done + 1) effective ::
    eventPairs effective total rest (done + 1) (cdone + a.stats.controls_generated)

/-- Control ids named by a parsed response. -/
def responseIds (cs : List ControlQuestions) : List String :=
  cs.map (fun c => c.control_id)

/-- Well-behaved model response for one sub-batch call: when the call
succeeds and its text parses, the parsed entries name each control at most
once and only controls of that call's sub-batch. -/
def respIdsOk (sbIds : List String) (fresh1 : Nat → String)
    (res : Except String (String × Usage)) : Prop :=
  ∀ text usage cs, res = Except.ok (text, usage) →
    _parse_questions fresh1 text = .ok cs →
    (responseIds cs).Nodup ∧ ∀ id ∈ responseIds cs, id ∈ sbIds

/-! ### A compact JSON serializer (specification side, for C3)

The truncation-repair claim quantifies over serialized JSON arrays; the class
of serializations considered is defined by this compact renderer (no
whitespace, `,` separators, `"`/`\` and the common control characters
escaped). -/

/-- Decimal digit character table. -/
def digitChar : Nat → Char
  | 0 => '0' | 1 => '1' | 2 => '2' | 3 => '3' | 4 => '4'
  | 5 => '5' | 6 => '6' | 7 => '7' | 8 => '8' | _ => '9'

def natDigitsAux : Nat → Nat → List Char
  | 0, _ => []
  | fuel + 1, n =>
    if n < 10 then [digitChar n]
    else natDigitsAux fuel (n / 10) ++ [digitChar (n % 10)]

/-- Decimal digits of a natural number, most significant first. -/
def natDigits (n : Nat) : List Char := natDigitsAux (n + 1) n

def renderInt (n : Int) : List Char :=
  if n < 0 then '-' :: natDigits n.natAbs else natDigits n.natAbs

def escapeChar (c : Char) : List Char :=
  if c = '"' then ['\\', '"']
  else if c = '\\' then ['\\', '\\']
  else if c = '\n' then ['\\', 'n']
  else if c = '\t' then ['\\', 't']
  else if c = '\r' then ['\\', 'r']
  else [c]

def escapeBody : List Char → List Char
  | [] => []
  | c :: cs => escapeChar c ++ escapeBody cs

def renderString (s : String) : List Char :=
  '"' :: escapeBody s.data ++ ['"']

mutual

/-- Compact JSON serialization. -/
def Json.render : Json → List Char
  | .null => "null".data
  | .bool true => "true".data
  | .bool false => "false".data
  | .num n => renderInt n
  | .str s => renderString s
  | .arr es => '[' :: renderElems es ++ [']']
  | .obj fs => '{' :: renderFields fs ++ ['}']

def renderElems : List Json → List Char
  | [] => []
  | [e] => e.render
  | e :: es => e.render ++ ',' :: renderElems es

def renderFields : List (String × Json) → List Char
  | [] => []
  | [(k, v)] => renderString k ++ ':' :: v.render
  | (k, v) :: fs => renderString k ++ ':' :: v.render ++ ',' :: renderFields fs

end

/-- Character renderable by `escapeChar` and accepted back by the strict
parser: printable, or one of the escaped control characters. -/
def goodChar (c : Char) : Bool :=
  (32 ≤ c.toNat) || c = '\n' || c = '\t' || c = '\r'

def goodString (s : String) : Bool := s.data.all goodChar

mutual

/-- JSON value whose strings survive the render/parse roundtrip. -/
def goodJson : Json → Bool
  | .null => true
  | .bool _ => true
  | .num _ => true
  | .str s => goodString s
  | .arr es => goodElems es
  | .obj fs => goodFields fs

def goodElems : List Json → Bool
  | [] => true
  | e :: es => goodJson e && goodElems es

def goodFields : List (String × Json) → Bool
  | [] => true
  | (k, v) :: fs => goodString k && goodJson v && goodFields fs

end

def isObj : Json → Bool
  | .obj _ => true
  | _ => false

/-- True when the remainder cannot extend a just-parsed number (so the
roundtrip is unambiguous). -/
def numBoundary : List Char → Bool
  | [] => true
  | c :: _ => !(c.isDigit || c = '.' || c = 'e' || c = 'E')

/-- Does `sub` occur anywhere in `s`? -/
def hasSub (sub : List Char) : List Char → Bool
  | [] => sub.isPrefixOf ([] : List Char)
  | c :: t => sub.isPrefixOf (c :: t) || hasSub sub t

/-! #### Lemmas about the distribution -/

theorem bucketAppend_length (bs : List (List α)) (j : Nat) (a : α) :
    (bucketAppend bs j a).length = bs.length := by
  induction bs generalizing j with
  | nil => rfl
  | cons b bs ih =>
    cases j with
    | zero => rfl
    | succ j => simpa [bucketAppend] using ih j

theorem bucketAppend_getD (bs : List (List α)) (j j' : Nat) (a : α) (hj' : j' < bs.length) :
    (bucketAppend bs j' a).getD j [] =
      if j = j' then bs.getD j [] ++ [a] else bs.getD j [] := by
  induction bs generalizing j j' with
  | nil => simp at hj'
  | cons b bs ih =>
    cases j' with
    | zero =>
      cases j with
      | zero => simp [bucketAppend]
      | succ j => simp [bucketAppend]
    | succ j' =>
      cases j with
      | zero => simp [bucketAppend]
      | succ j =>
        have := ih j j' (by simpa using hj')
        simpa [bucketAppend, Nat.succ_inj] using this

theorem distributeGo_length (k : Nat) (cs : List α) (buckets : List (List α)) (i : Nat) :
    (distributeGo k buckets i cs).length = buckets.length := by
  induction cs generalizing buckets i with
  | nil => rfl
  | cons c cs ih => simp [distributeGo, ih, bucketAppend_length]

theorem distributeGo_getD (k : Nat) (hk : 0 < k) (cs : List α) (buckets : List (List α))
    (hlen : buckets.length = k) (i j : Nat) :
    (distributeGo k buckets i cs).getD j [] =
      buckets.getD j [] ++ ((cs.enumFrom i).filter (fun p => p.1 % k = j)).map Prod.snd := by
  induction cs generalizing buckets i with
  | nil => simp [distributeGo]
  | cons c cs ih =>
    have hmod : i % k < buckets.length := by
      rw [hlen]; exact Nat.mod_lt _ hk
    have hlen' : (bucketAppend buckets (i % k) c).length = k := by
      rw [bucketAppend_length, hlen]
    rw [distributeGo, ih (bucketAppend buckets (i % k) c) hlen' (i + 1),
      bucketAppend_getD buckets j (i % k) c hmod]
    by_cases h : i % k = j
    · simp [List.enumFrom, h, List.filter]
    · have h' : ¬ j = i % k := fun hh => h hh.symm
      simp [List.enumFrom, h, h', List.filter]

/-- Characterization: bucket `j` holds exactly the controls whose index `i`
satisfies `i % k = j`, in original relative order. -/
theorem distribute_controls_getD (controls : List α) (k : Nat) (hk : 0 < k) (j : Nat) :
    (distribute_controls controls k).getD j [] =
      ((controls.enum).filter (fun p => p.1 % k = j)).map Prod.snd := by
  rw [distribute_controls, distributeGo_getD k hk controls _ (by simp) 0 j]
  simp [List.getElem?_getD_replicate_default_eq, List.enum]

theorem distribute_controls_length (controls : List α) (k : Nat) :
    (distribute_controls controls k).length = k := by
  rw [distribute_controls, distributeGo_length]; simp

theorem countResidue_succ (n k j : Nat) :
    countResidue (n + 1) k j = countResidue n k j + (if n % k = j then 1 else 0) := by
  unfold countResidue
  rw [List.range_succ, List.filter_append]
  by_cases h : n % k = j <;> simp [h]

theorem countResidue_formula (k : Nat) (hk : 0 < k) (j : Nat) (hj : j < k) (n : Nat) :
    countResidue n k j = n / k + (if j < n % k then 1 else 0) := by
  induction n with
  | zero => simp [countResidue]
  | succ n ih =>
    rw [countResidue_succ, ih]
    rcases Nat.lt_or_ge (n % k + 1) k with hlt | hge
    · have hdiv : (n + 1) / k = n / k := by
        conv_lhs => rw [← Nat.div_add_mod n k]
        rw [Nat.add_assoc, Nat.mul_add_div hk, Nat.div_eq_of_lt hlt, Nat.add_zero]
      have hmod : (n + 1) % k = n % k + 1 := by
        conv_lhs => rw [← Nat.div_add_mod n k]
        rw [Nat.add_assoc, Nat.mul_add_mod, Nat.mod_eq_of_lt hlt]
      rw [hdiv, hmod]
      split_ifs <;> omega
    · have heq : n % k + 1 = k := by
        have := Nat.mod_lt n hk
        omega
      have hdiv : (n + 1) / k = n / k + 1 := by
        conv_lhs => rw [← Nat.div_add_mod n k]
        rw [Nat.add_assoc, heq, Nat.mul_add_div hk, Nat.div_self hk]
      have hmod : (n + 1) % k = 0 := by
        conv_lhs => rw [← Nat.div_add_mod n k]
        rw [Nat.add_assoc, heq, Nat.mul_add_mod, Nat.mod_self]
      rw [hdiv, hmod]
      split_ifs <;> omega

theorem distribute_controls_size (controls : List α) (k : Nat) (hk : 0 < k) (j : Nat)
    (hj : j < k) :
    ((distribute_controls controls k).getD j []).length =
      controls.length / k + (if j < controls.length % k then 1 else 0) := by
  rw [distribute_controls_getD controls k hk j, List.length_map,
    ← countResidue_formula k hk j hj controls.length]
  unfold countResidue
  induction controls using List.reverseRecOn with
  | nil => rfl
  | append_singleton cs c ih =>
    rw [List.enum_append, List.filter_append, List.length_append, ih]
    have hlen : (cs ++ [c]).length = cs.length + 1 := by simp
    rw [hlen, List.range_succ, List.filter_append, List.length_append]
    have hsingle : (List.filter (fun p => decide (p.1 % k = j)) [(cs.length, c)]).length =
        (List.filter (fun i => decide (i % k = j)) [cs.length]).length := by
      by_cases h : cs.length % k = j <;> simp [h]
    simp only [List.enumFrom, hsingle]

theorem bucketAppend_flatten (bs : List (List α)) (j : Nat) (a : α) (hj : j < bs.length) :
    (bucketAppend bs j a).flatten.Perm (a :: bs.flatten) := by
  induction bs generalizing j with
  | nil => simp at hj
  | cons b bs ih =>
    cases j with
    | zero =>
      simp only [bucketAppend, List.flatten_cons, List.append_assoc]
      exact List.perm_middle
    | succ j =>
      simp only [bucketAppend, List.flatten_cons]
      exact ((ih j (by simpa using hj)).append_left b).trans List.perm_middle

theorem distributeGo_flatten (k : Nat) (hk : 0 < k) (cs : List α) (buckets : List (List α))
    (hlen : buckets.length = k) (i : Nat) :
    (distributeGo k buckets i cs).flatten.Perm (buckets.flatten ++ cs) := by
  induction cs generalizing buckets i with
  | nil => simp [distributeGo]
  | cons c cs ih =>
    have hmod : i % k < buckets.length := by rw [hlen]; exact Nat.mod_lt _ hk
    have h1 := ih (bucketAppend buckets (i % k) c) (by rw [bucketAppend_length, hlen]) (i + 1)
    have h2 : ((bucketAppend buckets (i % k) c).flatten ++ cs).Perm
        ((c :: buckets.flatten) ++ cs) :=
      (bucketAppend_flatten buckets (i % k) c hmod).append_right cs
    have h3 : ((c :: buckets.flatten) ++ cs).Perm (buckets.flatten ++ c :: cs) := by
      simpa using (@List.perm_middle _ c buckets.flatten cs).symm
    exact (h1.trans h2).trans h3

theorem distribute_controls_flatten (controls : List α) (k : Nat) (hk : 0 < k) :
    (distribute_controls controls k).flatten.Perm controls := by
  have := distributeGo_flatten k hk controls (List.replicate k []) (by simp) 0
  simpa [distribute_controls] using this

/-- C1: round-robin distribution. For `k ≥ 1` workers, `distribute_controls`
returns exactly `k` buckets; bucket `j` holds exactly the controls whose input
index `i` satisfies `i % k = j`, in original relative order; any two bucket
sizes differ by at most one; the buckets' concatenation is a permutation of the
input (so the union, order-independent, is the input, once each); `n = 0`
yields `k` empty buckets, and `n < k` yields `n` singleton buckets followed by
`k - n` empty ones. -/
theorem distribute_controls_spec (controls : List α) (k : Nat) (hk : 1 ≤ k) :
    (distribute_controls controls k).length = k ∧
    (∀ j, j < k → (distribute_controls controls k).getD j [] =
      ((controls.enum).filter (fun p => p.1 % k = j)).map Prod.snd) ∧
    (∀ j₁ j₂, j₁ < k → j₂ < k →
      ((distribute_controls controls k).getD j₁ []).length ≤
        ((distribute_controls controls k).getD j₂ []).length + 1) ∧
    (distribute_controls controls k).flatten.Perm controls ∧
    (controls = [] → distribute_controls controls k = List.replicate k []) ∧
    (controls.length < k → ∀ j, j < k →
      ((distribute_controls controls k).getD j []).length =
        if j < controls.length then 1 else 0) := by
  have hk0 : 0 < k := hk
  refine ⟨distribute_controls_length controls k,
    fun j _ => distribute_controls_getD controls k hk0 j, ?_, distribute_controls_flatten controls k hk0,
    ?_, ?_⟩
  · intro j₁ j₂ h₁ h₂
    rw [distribute_controls_size controls k hk0 j₁ h₁,
      distribute_controls_size controls k hk0 j₂ h₂]
    split_ifs <;> omega
  · rintro rfl; rfl
  · intro hn j hj
    rw [distribute_controls_size controls k hk0 j hj,
      Nat.div_eq_of_lt hn, Nat.mod_eq_of_lt hn]
    omega

/-- Witness for `distribute_controls_spec` at `controls = [10, 11, 12]`, `k = 2`. -/
theorem distribute_controls_spec_witness :
    (1 ≤ 2) ∧
    ((distribute_controls [10, 11, 12] 2).length = 2 ∧
    (∀ j, j < 2 → (distribute_controls [10, 11, 12] 2).getD j [] =
      (([10, 11, 12].enum).filter (fun p => p.1 % 2 = j)).map Prod.snd) ∧
    (∀ j₁ j₂, j₁ < 2 → j₂ < 2 →
      ((distribute_controls [10, 11, 12] 2).getD j₁ []).length ≤
        ((distribute_controls [10, 11, 12] 2).getD j₂ []).length + 1) ∧
    (distribute_controls [10, 11, 12] 2).flatten.Perm [10, 11, 12] ∧
    (([10, 11, 12] : List Nat) = [] → distribute_controls [10, 11, 12] 2 = List.replicate 2 []) ∧
    (([10, 11, 12] : List Nat).length < 2 → ∀ j, j < 2 →
      ((distribute_controls [10, 11, 12] 2).getD j []).length =
        if j < ([10, 11, 12] : List Nat).length then 1 else 0)) :=
  ⟨by decide, distribute_controls_spec [10, 11, 12] 2 (by decide)⟩

/-! ### C9: `_effective_batch_size` monotonicity and bounds -/

/-- C9: for every `questionsPerControl ≥ 1`, `_effective_batch_size` is
monotonically non-increasing and its value lies in `[5, MAX_CONTROLS_PER_CALL]`
(the hard cap, 20). -/
theorem _effective_batch_size_spec :
    (∀ q₁ q₂ : Nat, 1 ≤ q₁ → q₁ ≤ q₂ →
      _effective_batch_size q₂ ≤ _effective_batch_size q₁) ∧
    (∀ q : Nat, 1 ≤ q →
      5 ≤ _effective_batch_size q ∧
        _effective_batch_size q ≤ MAX_CONTROLS_PER_CALL) := by
  have hrfl : ∀ q : Nat, _effective_batch_size q =
      max 5 (min (_MAX_OUTPUT_TOKENS * 3 / 4 / (q * _TOKENS_PER_QUESTION))
        MAX_CONTROLS_PER_CALL) := fun _ => rfl
  constructor
  · intro q₁ q₂ h1 h12
    rw [hrfl q₁, hrfl q₂]
    have hdiv : _MAX_OUTPUT_TOKENS * 3 / 4 / (q₂ * _TOKENS_PER_QUESTION) ≤
        _MAX_OUTPUT_TOKENS * 3 / 4 / (q₁ * _TOKENS_PER_QUESTION) := by
      apply Nat.div_le_div_left
      · exact Nat.mul_le_mul_right _ h12
      · have h0 : 0 < q₁ := h1
        simp only [_TOKENS_PER_QUESTION]
        omega
    exact max_le_max le_rfl (min_le_min hdiv le_rfl)
  · intro q _
    rw [hrfl q]
    exact ⟨Nat.le_max_left _ _, Nat.max_le.mpr ⟨by decide, Nat.min_le_right _ _⟩⟩

/-- Witness for `_effective_batch_size_spec` conjuncts at `q₁ = 3`, `q₂ = 5`:
monotonicity gives `12 ≤ 20` and the bounds hold at `q = 5`. -/
theorem _effective_batch_size_spec_witness :
    _effective_batch_size 5 ≤ _effective_batch_size 3 ∧
    5 ≤ _effective_batch_size 5 ∧ _effective_batch_size 5 ≤ MAX_CONTROLS_PER_CALL :=
  ⟨_effective_batch_size_spec.1 3 5 (by decide) (by decide),
    _effective_batch_size_spec.2 5 (by decide)⟩

/-! ### C2: error behaviour of `_parse_questions` -/

theorem parse_questions_eq_decoded (fresh : Nat → String) (text : String) :
    _parse_questions fresh text =
      match decodedArray text with
      | none => .ok []
      | some raw => pyIter raw >>= fun items => buildControlsGo fresh items 0 := by
  unfold _parse_questions decodedArray
  cases h1 : extractJsonArray text.data with
  | none => rfl
  | some js =>
    cases h2 : jsonParse js with
    | some raw => simp only [h2]
    | none =>
      cases h3 : tryRepairTruncatedJson js with
      | none => simp only [h2, h3]
      | some rep =>
        cases h4 : jsonParse rep with
        | some raw => simp only [h2, h3, h4]
        | none => simp only [h2, h3, h4]

theorem except_bind_ok (a : α) (f : α → Except ε β) :
    (Except.ok a : Except ε α) >>= f = f a := rfl

theorem wellShapedQuestion_obj (q : Json) (h : wellShapedQuestion q = true) :
    ∃ qf, q = Json.obj qf := by
  cases q <;> simp_all [wellShapedQuestion]

theorem wellShapedItem_obj (item : Json) (h : wellShapedItem item = true) :
    ∃ fields, item = Json.obj fields := by
  cases item <;> simp_all [wellShapedItem]

theorem asStr_getD_ok (fields : List (String × Json)) (key d : String)
    (h : fieldOkStr fields key = true) :
    asStr ((lookupKey fields key).getD (.str d)) =
      .ok (match lookupKey fields key with | some (.str s) => s | _ => d) := by
  cases hl : lookupKey fields key with
  | none => simp [asStr]
  | some v =>
    cases v <;> simp_all [fieldOkStr, asStr]

theorem asOptStr_getD_ok (fields : List (String × Json)) (key : String)
    (h : fieldOkOptStr fields key = true) :
    asOptStr ((lookupKey fields key).getD .null) =
      .ok (match lookupKey fields key with | some (.str s) => some s | _ => none) := by
  cases hl : lookupKey fields key with
  | none => simp [asOptStr]
  | some v =>
    cases v <;> simp_all [fieldOkOptStr, asOptStr]

theorem mkGeneratedQuestion_ok (fresh : String) (qf : List (String × Json))
    (h : wellShapedQuestion (.obj qf) = true) :
    mkGeneratedQuestion fresh (.obj qf) = .ok
      { id := match lookupKey qf "id" with | some (.str s) => s | _ => fresh
        question := match lookupKey qf "question" with | some (.str s) => s | _ => ""
        category := match lookupKey qf "category" with | some (.str s) => s | _ => "general"
        priority := match lookupKey qf "priority" with | some (.str s) => s | _ => "medium"
        expected_evidence :=
          match lookupKey qf "expected_evidence" with | some (.str s) => some s | _ => none
        guidance_notes :=
          match lookupKey qf "guidance_notes" with | some (.str s) => some s | _ => none } := by
  simp only [wellShapedQuestion, Bool.and_eq_true] at h
  obtain ⟨⟨⟨⟨⟨h1, h2⟩, h3⟩, h4⟩, h5⟩, h6⟩ := h
  unfold mkGeneratedQuestion
  simp only [dictGet, except_bind_ok, asStr_getD_ok _ _ _ h1, asStr_getD_ok _ _ _ h2,
    asStr_getD_ok _ _ _ h3, asStr_getD_ok _ _ _ h4, asOptStr_getD_ok _ _ h5,
    asOptStr_getD_ok _ _ h6]
  rfl

theorem buildQuestionsGo_ok (fresh : Nat → String) (qs : List Json) (idx : Nat)
    (h : qs.all wellShapedQuestion = true) :
    ∃ p, buildQuestionsGo fresh qs idx = .ok p := by
  induction qs generalizing idx with
  | nil => exact ⟨([], idx), rfl⟩
  | cons q qs ih =>
    simp only [List.all_cons, Bool.and_eq_true] at h
    obtain ⟨hq, hqs⟩ := h
    obtain ⟨qf, rfl⟩ := wellShapedQuestion_obj q hq
    obtain ⟨⟨gs, idx2⟩, hp⟩ := ih (idx + 1) hqs
    obtain ⟨g, hg⟩ : ∃ g, mkGeneratedQuestion (fresh idx) (.obj qf) = .ok g :=
      ⟨_, mkGeneratedQuestion_ok (fresh idx) qf hq⟩
    exact ⟨(g :: gs, idx2), by rw [buildQuestionsGo, hg]; simp only [except_bind_ok, hp]; rfl⟩

theorem buildControlsGo_ok (fresh : Nat → String) (items : List Json) (idx : Nat)
    (h : items.all wellShapedItem = true) :
    ∃ cs, buildControlsGo fresh items idx = .ok cs := by
  induction items generalizing idx with
  | nil => exact ⟨[], rfl⟩
  | cons item items ih =>
    simp only [List.all_cons, Bool.and_eq_true] at h
    obtain ⟨hitem, hitems⟩ := h
    obtain ⟨fields, rfl⟩ := wellShapedItem_obj item hitem
    simp only [wellShapedItem, Bool.and_eq_true] at hitem
    obtain ⟨⟨⟨hq, hcid⟩, hct⟩, hfw⟩ := hitem
    rw [buildControlsGo]
    simp only [dictGet, except_bind_ok]
    have hqs : ∃ qList, pyIter ((lookupKey fields "questions").getD (.arr [])) = .ok qList ∧
        qList.all wellShapedQuestion = true := by
      unfold questionsFieldOk at hq
      cases hl : lookupKey fields "questions" with
      | none => exact ⟨[], by simp [hl, pyIter], rfl⟩
      | some v =>
        rw [hl] at hq
        cases v <;> simp_all [pyIter]
    obtain ⟨qList, hq1, hq2⟩ := hqs
    rw [hq1]
    simp only [except_bind_ok]
    obtain ⟨⟨gs, idx2⟩, hp⟩ := buildQuestionsGo_ok fresh qList idx hq2
    rw [hp]
    simp only [except_bind_ok, asStr_getD_ok _ _ _ hcid, asStr_getD_ok _ _ _ hct,
      asStr_getD_ok _ _ _ hfw]
    obtain ⟨cs, hcs⟩ := ih idx2 hitems
    rw [hcs]
    exact ⟨_, rfl⟩

/-- C2, amended: `_parse_questions` returns the empty list (raising nothing)
whenever no JSON array can be extracted or the extracted candidate fails to
parse and no repair yields parseable JSON; and it returns a list (raising
nothing) whenever every item of the decoded array is a JSON object with
correctly-typed fields.  (As stated, the claim is false: a decoded array
with a non-object item raises, see the counterexample.) -/
theorem parse_questions_amended (fresh : Nat → String) (text : String) :
    (decodedArray text = none → _parse_questions fresh text = .ok []) ∧
    (∀ items, decodedArray text = some (.arr items) →
      items.all wellShapedItem = true →
      ∃ cs, _parse_questions fresh text = .ok cs) := by
  constructor
  · intro h
    rw [parse_questions_eq_decoded, h]
  · intro items hdec hall
    obtain ⟨cs, hcs⟩ := buildControlsGo_ok fresh items 0 hall
    refine ⟨cs, ?_⟩
    rw [parse_questions_eq_decoded, hdec]
    simp only [pyIter, except_bind_ok, hcs]

/-- C2 counterexample: on the response text `"[1,2]"` (a well-formed JSON
array), `_parse_questions` hits `item.get` on a non-dict and raises
`AttributeError` — it does not return a list.  This falsifies "returns a
list of ControlQuestions and never raises an exception" for every input. -/
theorem parse_questions_counterexample :
    _parse_questions defaultFresh "[1,2]" = .error .attributeError := by
  rfl

/-- Witness for `parse_questions_amended`: at `text = "not json at all"`
extraction fails and the result is the empty list, and at a well-formed
single-control response the result is a list. -/
theorem parse_questions_amended_witness :
    decodedArray "not json at all" = none ∧
    _parse_questions defaultFresh "not json at all" = .ok [] ∧
    decodedArray "[\x7b\"control_id\":\"A.1\"\x7d]" =
      some (.arr [.obj [("control_id", .str "A.1")]]) ∧
    ([Json.obj [("control_id", .str "A.1")]].all wellShapedItem = true) ∧
    ∃ cs, _parse_questions defaultFresh "[\x7b\"control_id\":\"A.1\"\x7d]" = .ok cs :=
  ⟨rfl, (parse_questions_amended defaultFresh "not json at all").1 rfl, rfl, by decide,
    (parse_questions_amended defaultFresh "[\x7b\"control_id\":\"A.1\"\x7d]").2
      [.obj [("control_id", .str "A.1")]] rfl (by decide)⟩

/-! ### C10: field defaulting and the category enum -/

/-- C10 counterexample: a response whose question object has no `category`
field parses to a `GeneratedQuestion` with category `"general"`, which is not
one of `policy_existence | implementation | monitoring | effectiveness |
documentation`; the post-generation trim pass keeps it, so the swarm's output
carries it.  This falsifies the claim's enum conjunct (no enum validation
exists in the code). -/
theorem parse_questions_category_counterexample :
    _parse_questions defaultFresh "[\x7b\"questions\":[\x7b\x7d]\x7d]" =
      .ok [⟨"", "", "", [⟨"q-0", "", "general", "medium", none, none⟩]⟩] ∧
    _validate_and_trim_questions [⟨"", "", "", [⟨"q-0", "", "general", "medium", none, none⟩]⟩] =
      [⟨"", "", "", [⟨"q-0", "", "general", "medium", none, none⟩]⟩] ∧
    "general" ∉ ["policy_existence", "implementation", "monitoring",
      "effectiveness", "documentation"] := by
  refine ⟨rfl, rfl, ?_⟩
  decide

/-- C10, amended: during parsing an object with a missing `priority` defaults
to `"medium"` and a missing `id` defaults to the freshly generated identifier
rather than the whole object being rejected; `category` however is passed
through unvalidated — any emitted string is kept and a missing `category`
defaults to `"general"`, which is outside the documented enum. -/
theorem mkGeneratedQuestion_defaults (fresh : String) (qf : List (String × Json))
    (h : wellShapedQuestion (.obj qf) = true) :
    ∃ g, mkGeneratedQuestion fresh (.obj qf) = .ok g ∧
      (lookupKey qf "priority" = none → g.priority = "medium") ∧
      (lookupKey qf "id" = none → g.id = fresh) ∧
      (lookupKey qf "category" = none → g.category = "general") ∧
      (∀ s, lookupKey qf "category" = some (.str s) → g.category = s) := by
  refine ⟨_, mkGeneratedQuestion_ok fresh qf h, ?_, ?_, ?_, ?_⟩
  · intro hp; simp [hp]
  · intro hp; simp [hp]
  · intro hp; simp [hp]
  · intro s hp; simp [hp]

/-- Witness for `mkGeneratedQuestion_defaults` at the empty question object. -/
theorem mkGeneratedQuestion_defaults_witness :
    wellShapedQuestion (.obj []) = true ∧
    ∃ g, mkGeneratedQuestion "q-77" (.obj []) = .ok g ∧
      (lookupKey [] "priority" = none → g.priority = "medium") ∧
      (lookupKey [] "id" = none → g.id = "q-77") ∧
      (lookupKey [] "category" = none → g.category = "general") ∧
      (∀ s, lookupKey [] "category" = some (.str s) → g.category = s) :=
  ⟨rfl, mkGeneratedQuestion_defaults "q-77" [] rfl⟩

/-! ### Shared lemmas about the coordinator aggregation -/

theorem aggregate_foldl (results : List (List ControlQuestions × AgentStats × List ApiCall))
    (acc : SwarmResult) :
    results.foldl aggregateStep acc =
      { controls := acc.controls ++ (results.map (fun r => r.1)).flatten
        agent_stats := acc.agent_stats ++ results.map (fun r => r.2.1)
        total_input_tokens :=
          acc.total_input_tokens + (results.map (fun r => r.2.1.input_tokens)).sum
        total_cache_read_tokens :=
          acc.total_cache_read_tokens + (results.map (fun r => r.2.1.cache_read_tokens)).sum
        total_output_tokens :=
          acc.total_output_tokens + (results.map (fun r => r.2.1.output_tokens)).sum } := by
  induction results generalizing acc with
  | nil => simp
  | cons r rs ih =>
    rw [List.foldl_cons, ih]
    simp [aggregateStep, Nat.add_assoc]

theorem aggregate_spec (results : List (List ControlQuestions × AgentStats × List ApiCall)) :
    aggregate results =
      { controls := (results.map (fun r => r.1)).flatten
        agent_stats := results.map (fun r => r.2.1)
        total_input_tokens := (results.map (fun r => r.2.1.input_tokens)).sum
        total_cache_read_tokens := (results.map (fun r => r.2.1.cache_read_tokens)).sum
        total_output_tokens := (results.map (fun r => r.2.1.output_tokens)).sum } := by
  unfold aggregate
  rw [aggregate_foldl]
  simp

theorem swarm_worker_results_length (controls : List Control) (context : Context)
    (criteria : Criteria) (num_agents : Nat) (api : Nat → Nat → Except String (String × Usage))
    (fresh3 : Nat → Nat → Nat → String) :
    (swarm_worker_results controls context criteria num_agents api fresh3).length =
      effective_agents controls.length num_agents := by
  unfold swarm_worker_results
  simp

/-! ### C8: worker-count selection -/

/-- C8 counterexample: the tests construct swarms with `num_agents = 2`; a
`generate` call on 30 controls then launches `min(4, 2) = 2` workers, not the
4 the claim states for `30 ≤ n < 60`. -/
theorem worker_count_counterexample :
    ((generate (List.replicate 30 ⟨"c", "t", "f", "d", none⟩) {} {} 2
        (fun _ _ => .error "boom") (fun _ _ _ => "q")).1.agent_stats).length = 2 ∧
    (2 : Nat) ≠ 4 := by
  constructor
  · rw [generate, aggregate_spec]
    simp only [List.length_map]
    rw [swarm_worker_results_length]
    rfl
  · decide

/-- C8, amended: both entry points launch
`min(_optimal_worker_count n, num_agents)` workers; under the default
configuration `num_agents = DEFAULT_NUM_AGENTS = 6` this is exactly 2 for
`n < 10`, 3 for `10 ≤ n < 30`, 4 for `30 ≤ n < 60` and 6 for `n ≥ 60`. -/
theorem worker_count_spec (controls : List Control) (context : Context) (criteria : Criteria)
    (num_agents : Nat) (api : Nat → Nat → Except String (String × Usage))
    (fresh3 : Nat → Nat → Nat → String) (order : List Nat) :
    ((generate controls context criteria num_agents api fresh3).1.agent_stats).length =
      min (_optimal_worker_count controls.length) num_agents ∧
    ((generate_stream_events controls context criteria num_agents api fresh3 order).head? =
      some (.progress 0 (min (_optimal_worker_count controls.length) num_agents) 0
        controls.length none 0 (min (_optimal_worker_count controls.length) num_agents))) ∧
    (num_agents = DEFAULT_NUM_AGENTS →
      (controls.length < 10 →
        min (_optimal_worker_count controls.length) num_agents = 2) ∧
      (10 ≤ controls.length → controls.length < 30 →
        min (_optimal_worker_count controls.length) num_agents = 3) ∧
      (30 ≤ controls.length → controls.length < 60 →
        min (_optimal_worker_count controls.length) num_agents = 4) ∧
      (60 ≤ controls.length →
        min (_optimal_worker_count controls.length) num_agents = 6)) := by
  refine ⟨?_, ?_, ?_⟩
  · rw [generate, aggregate_spec]
    simp only [List.length_map]
    exact swarm_worker_results_length controls context criteria num_agents api fresh3
  · rfl
  · intro hna
    subst hna
    unfold _optimal_worker_count DEFAULT_NUM_AGENTS
    refine ⟨fun h => ?_, fun h1 h2 => ?_, fun h1 h2 => ?_, fun h => ?_⟩ <;>
      split_ifs <;> omega

/-- Witness for `worker_count_spec` at 12 controls, default agents. -/
theorem worker_count_spec_witness :
    ((generate (List.replicate 12 ⟨"c", "t", "f", "d", none⟩) {} {} DEFAULT_NUM_AGENTS
        (fun _ _ => .error "boom") (fun _ _ _ => "q")).1.agent_stats).length =
      min (_optimal_worker_count (List.replicate 12
        (⟨"c", "t", "f", "d", none⟩ : Control)).length) DEFAULT_NUM_AGENTS ∧
    (10 ≤ (List.replicate 12 (⟨"c", "t", "f", "d", none⟩ : Control)).length ∧
      min (_optimal_worker_count (List.replicate 12
        (⟨"c", "t", "f", "d", none⟩ : Control)).length) DEFAULT_NUM_AGENTS = 3) :=
  ⟨(worker_count_spec _ {} {} DEFAULT_NUM_AGENTS _ _ []).1,
    by simp, ((worker_count_spec (List.replicate 12 ⟨"c", "t", "f", "d", none⟩) {} {}
      DEFAULT_NUM_AGENTS (fun _ _ => .error "boom") (fun _ _ _ => "q") []).2.2 rfl).2.1
      (by simp) (by simp)⟩

/-! ### C7: the shared context is one string, identical for every call -/

theorem worker_process_batch_calls (shared : String) (qpc : Nat)
    (r : Except String (String × Usage)) (f1 : Nat → String) (sb : List Control)
    (st : WorkerState) :
    (worker_process_batch shared qpc r f1 sb st).calls =
      st.calls ++ [⟨shared, build_controls_section (format_batch_controls sb),
        _dynamic_max_tokens sb.length qpc⟩] := by
  unfold worker_process_batch
  cases r with
  | error e => rfl
  | ok p =>
    obtain ⟨text, usage⟩ := p
    cases hp : _parse_questions f1 text <;> simp only [hp]

theorem worker_fold_calls (shared : String) (qpc : Nat)
    (api : Nat → Except String (String × Usage)) (f2 : Nat → Nat → String)
    (bs : List (Nat × List Control)) (st : WorkerState) :
    ((bs.foldl (fun st p =>
        worker_process_batch shared qpc (api p.1) (f2 p.1) p.2 st) st).calls) =
      st.calls ++ bs.map (fun p =>
        (⟨shared, build_controls_section (format_batch_controls p.2),
          _dynamic_max_tokens p.2.length qpc⟩ : ApiCall)) := by
  induction bs generalizing st with
  | nil => simp
  | cons b bs ih =>
    rw [List.foldl_cons, ih, worker_process_batch_calls]
    simp

theorem worker_generate_calls (agent_id : Nat) (controls : List Control) (shared : String)
    (qpc : Nat) (api : Nat → Except String (String × Usage)) (f2 : Nat → Nat → String)
    (h : controls.isEmpty = false) :
    (worker_generate agent_id controls shared qpc api f2).2.2 =
      (sub_batches controls (_effective_batch_size qpc)).map (fun sb =>
        (⟨shared, build_controls_section (format_batch_controls sb),
          _dynamic_max_tokens sb.length qpc⟩ : ApiCall)) := by
  unfold worker_generate
  rw [if_neg (by simp [h])]
  simp only [worker_fold_calls, List.nil_append]
  have : (fun p : Nat × List Control =>
      (⟨shared, build_controls_section (format_batch_controls p.2),
        _dynamic_max_tokens p.2.length qpc⟩ : ApiCall)) =
      (fun sb : List Control =>
        (⟨shared, build_controls_section (format_batch_controls sb),
          _dynamic_max_tokens sb.length qpc⟩ : ApiCall)) ∘ Prod.snd := rfl
  rw [this, ← List.map_map, List.enum_map_snd]

theorem worker_calls_shared (agent_id : Nat) (controls : List Control) (shared : String)
    (qpc : Nat) (api : Nat → Except String (String × Usage)) (f2 : Nat → Nat → String)
    (call : ApiCall) (hc : call ∈ (worker_generate agent_id controls shared qpc api f2).2.2) :
    call.shared_context = shared := by
  cases h : controls.isEmpty with
  | true =>
    unfold worker_generate at hc
    rw [if_pos (by simp_all)] at hc
    simp at hc
  | false =>
    rw [worker_generate_calls agent_id controls shared qpc api f2 h] at hc
    obtain ⟨sb, _, rfl⟩ := List.mem_map.mp hc
    rfl

theorem generate_transcripts (controls : List Control) (context : Context)
    (criteria : Criteria) (num_agents : Nat)
    (api : Nat → Nat → Except String (String × Usage)) (fresh3 : Nat → Nat → Nat → String) :
    (generate controls context criteria num_agents api fresh3).2 =
      (swarm_worker_results controls context criteria num_agents api fresh3).map
        (fun r => r.2.2) := rfl

theorem transcript_getD (controls : List Control) (context : Context) (criteria : Criteria)
    (num_agents : Nat) (api : Nat → Nat → Except String (String × Usage))
    (fresh3 : Nat → Nat → Nat → String) (i : Nat)
    (hi : i < effective_agents controls.length num_agents) :
    ((generate controls context criteria num_agents api fresh3).2).getD i [] =
      (worker_generate i
        ((distribute_controls controls (effective_agents controls.length num_agents)).getD i [])
        (build_shared_context context
          (criteria.maturity_level.getD "recurring_assessment")
          (criteria.question_depth.getD "balanced")
          criteria.priority_domains criteria.compliance_concerns criteria.controls_to_skip
          criteria.questions_per_control)
        (criteria.questions_per_control.getD 3) (api i) (fresh3 i)).2.2 := by
  rw [generate_transcripts]
  unfold swarm_worker_results
  rw [List.map_map, List.getD_eq_getElem?_getD]
  simp [List.getElem?_map, List.getElem?_range, hi]

theorem generate_call_shared (controls : List Control) (context : Context)
    (criteria : Criteria) (num_agents : Nat)
    (api : Nat → Nat → Except String (String × Usage)) (fresh3 : Nat → Nat → Nat → String)
    (i b : Nat)
    (hb : b < (((generate controls context criteria num_agents api fresh3).2).getD i []).length) :
    ((((generate controls context criteria num_agents api fresh3).2).getD i []).getD b
        default).shared_context =
      build_shared_context context
        (criteria.maturity_level.getD "recurring_assessment")
        (criteria.question_depth.getD "balanced")
        criteria.priority_domains criteria.compliance_concerns criteria.controls_to_skip
        criteria.questions_per_control := by
  by_cases hi : i < effective_agents controls.length num_agents
  · rw [transcript_getD controls context criteria num_agents api fresh3 i hi] at hb ⊢
    apply worker_calls_shared
    rw [List.getD_eq_getElem _ _ hb]
    exact List.getElem_mem hb
  · exfalso
    rw [List.getD_eq_default] at hb
    · simp at hb
    · rw [generate_transcripts, List.length_map, swarm_worker_results_length]
      omega

/-- C7: `build_shared_context` is a deterministic function of `context` and
`criteria` alone; within one `generate` invocation every API call of every
worker carries that identical shared-context string, byte-identical to the
string of any other invocation with the same `context`/`criteria` regardless
of the controls; and the per-worker controls section is kept in a separate
string, built from the worker's own sub-batch. -/
theorem build_shared_context_uniform (controls₁ controls₂ : List Control) (context : Context)
    (criteria : Criteria) (num_agents : Nat)
    (api₁ api₂ : Nat → Nat → Except String (String × Usage))
    (fresh₁ fresh₂ : Nat → Nat → Nat → String) :
    (∀ i b,
      b < (((generate controls₁ context criteria num_agents api₁ fresh₁).2).getD i []).length →
      ((((generate controls₁ context criteria num_agents api₁ fresh₁).2).getD i []).getD b
          default).shared_context =
        build_shared_context context
          (criteria.maturity_level.getD "recurring_assessment")
          (criteria.question_depth.getD "balanced")
          criteria.priority_domains criteria.compliance_concerns criteria.controls_to_skip
          criteria.questions_per_control) ∧
    (∀ i₁ b₁ i₂ b₂,
      b₁ < (((generate controls₁ context criteria num_agents api₁ fresh₁).2).getD i₁ []).length →
      b₂ < (((generate controls₂ context criteria num_agents api₂ fresh₂).2).getD i₂ []).length →
      ((((generate controls₁ context criteria num_agents api₁ fresh₁).2).getD i₁ []).getD b₁
          default).shared_context =
        ((((generate controls₂ context criteria num_agents api₂ fresh₂).2).getD i₂ []).getD b₂
          default).shared_context) ∧
    (∀ i, i < effective_agents controls₁.length num_agents →
      (((distribute_controls controls₁
          (effective_agents controls₁.length num_agents)).getD i []).isEmpty = false) →
      ((generate controls₁ context criteria num_agents api₁ fresh₁).2).getD i [] =
        (sub_batches
            ((distribute_controls controls₁
              (effective_agents controls₁.length num_agents)).getD i [])
            (_effective_batch_size (criteria.questions_per_control.getD 3))).map (fun sb =>
          (⟨build_shared_context context
              (criteria.maturity_level.getD "recurring_assessment")
              (criteria.question_depth.getD "balanced")
              criteria.priority_domains criteria.compliance_concerns
              criteria.controls_to_skip criteria.questions_per_control,
            build_controls_section (format_batch_controls sb),
            _dynamic_max_tokens sb.length
              (criteria.questions_per_control.getD 3)⟩ : ApiCall))) := by
  refine ⟨fun i b hb => generate_call_shared _ _ _ _ _ _ i b hb, fun i₁ b₁ i₂ b₂ h₁ h₂ => ?_,
    fun i hi hne => ?_⟩
  · rw [generate_call_shared controls₁ context criteria num_agents api₁ fresh₁ i₁ b₁ h₁,
      generate_call_shared controls₂ context criteria num_agents api₂ fresh₂ i₂ b₂ h₂]
  · rw [transcript_getD controls₁ context criteria num_agents api₁ fresh₁ i hi,
      worker_generate_calls _ _ _ _ _ _ hne]

/-- Witness for `build_shared_context_uniform` at a one-control invocation
(worker 0 makes exactly one call). -/
theorem build_shared_context_uniform_witness :
    ((((generate [⟨"c", "t", "f", "d", none⟩] {} {} 2
        (fun _ _ => .error "boom") (fun _ _ _ => "q")).2).getD 0 []).getD 0
          default).shared_context =
      build_shared_context {} ((({} : Criteria)).maturity_level.getD "recurring_assessment")
        ((({} : Criteria)).question_depth.getD "balanced")
        (({} : Criteria)).priority_domains (({} : Criteria)).compliance_concerns
        (({} : Criteria)).controls_to_skip (({} : Criteria)).questions_per_control :=
  (build_shared_context_uniform [⟨"c", "t", "f", "d", none⟩] [] {} {} 2
    (fun _ _ => .error "boom") (fun _ _ => .error "boom")
    (fun _ _ _ => "q") (fun _ _ _ => "q")).1 0 0 (by decide)

/-! ### C6: streaming event order -/

theorem streamGo_spec (effective total : Nat) (arrivals : List Arrival) :
    ∀ (done cdone : Nat),
      streamGo effective total arrivals done cdone =
        if done + arrivals.length < effective then
          eventPairs effective total arrivals done cdone ++
            [.error "Agent timed out after 90s"]
        else
          eventPairs effective total (arrivals.take (effective - done)) done cdone := by
  induction arrivals with
  | nil =>
    intro done cdone
    rw [streamGo]
    by_cases h : done < effective
    · rw [if_pos h, if_pos (by simp; omega)]
      simp [eventPairs]
    · rw [if_neg h, if_neg (by simp; omega)]
      simp [eventPairs]
  | cons a rest ih =>
    intro done cdone
    rw [streamGo]
    by_cases h : done < effective
    · rw [if_pos h, ih (done + 1) (cdone + a.stats.controls_generated)]
      by_cases h2 : done + 1 + rest.length < effective
      · rw [if_pos h2, if_pos (by simp; omega)]
        simp [eventPairs]
      · rw [if_neg h2, if_neg (by simp; omega)]
        have hsub : effective - done = (effective - (done + 1)) + 1 := by omega
        rw [hsub, List.take_succ_cons]
        simp [eventPairs]
    · rw [if_neg h, if_neg (by omega), show effective - done = 0 by omega]
      simp [eventPairs]

theorem eventPairs_no_error (effective total : Nat) (arrivals : List Arrival) :
    ∀ (done cdone : Nat) (msg : String),
      SseEvent.error msg ∉ eventPairs effective total arrivals done cdone := by
  induction arrivals with
  | nil => intro done cdone msg; simp [eventPairs]
  | cons a rest ih =>
    intro done cdone msg
    simp only [eventPairs, List.mem_cons]
    push_neg
    exact ⟨by simp, by simp, ih _ _ msg⟩

/-- C6: in every `generate_stream` execution the first emitted event is a
zero-totals `progress` event, emitted before any completion is consumed; each
completion then yields exactly one `agent_complete` event carrying that
worker's generated controls and stats immediately followed by one `progress`
event with cumulative totals (the `eventPairs` shape); if the queue is
exhausted before all workers have reported (the bounded 90s wait expiring), a
single fatal `error` event is emitted and the stream ends immediately with no
further events; and when all workers report, no `error` event is emitted. -/
theorem generate_stream_spec (controls : List Control) (context : Context)
    (criteria : Criteria) (num_agents : Nat)
    (api : Nat → Nat → Except String (String × Usage))
    (fresh3 : Nat → Nat → Nat → String) (order : List Nat) :
    (∃ rest, generate_stream_events controls context criteria num_agents api fresh3 order =
      SseEvent.progress 0 (effective_agents controls.length num_agents) 0 controls.length
        none 0 (effective_agents controls.length num_agents) :: rest) ∧
    (order.length < effective_agents controls.length num_agents →
      generate_stream_events controls context criteria num_agents api fresh3 order =
        SseEvent.progress 0 (effective_agents controls.length num_agents) 0 controls.length
            none 0 (effective_agents controls.length num_agents) ::
          (eventPairs (effective_agents controls.length num_agents) controls.length
              (stream_arrivals controls context criteria num_agents api fresh3 order) 0 0 ++
            [.error "Agent timed out after 90s"])) ∧
    (effective_agents controls.length num_agents ≤ order.length →
      generate_stream_events controls context criteria num_agents api fresh3 order =
        SseEvent.progress 0 (effective_agents controls.length num_agents) 0 controls.length
            none 0 (effective_agents controls.length num_agents) ::
          eventPairs (effective_agents controls.length num_agents) controls.length
            ((stream_arrivals controls context criteria num_agents api fresh3 order).take
              (effective_agents controls.length num_agents)) 0 0 ∧
      ∀ msg, SseEvent.error msg ∉
        generate_stream_events controls context criteria num_agents api fresh3 order) := by
  have hlen : (stream_arrivals controls context criteria num_agents api fresh3 order).length =
      order.length := by
    unfold stream_arrivals
    simp
  refine ⟨?_, fun h => ?_, fun h => ⟨?_, fun msg => ?_⟩⟩
  · exact ⟨_, rfl⟩
  · unfold generate_stream_events
    rw [streamGo_spec, if_pos (by omega)]
  · unfold generate_stream_events
    rw [streamGo_spec, if_neg (by omega)]
    simp
  · unfold generate_stream_events
    rw [streamGo_spec, if_neg (by omega)]
    simp only [List.mem_cons, not_or]
    exact ⟨by simp, by simpa using eventPairs_no_error _ _ _ 0 0 msg⟩

/-- Witness for `generate_stream_spec`: one control, two workers.  With the
single arrival `[0]` the wait for the second worker times out after the first
pair of events; with arrivals `[0, 1]` the stream completes with no error
event. -/
theorem generate_stream_spec_witness :
    (([0] : List Nat).length <
      effective_agents ([⟨"c", "t", "f", "d", none⟩] : List Control).length 2 ∧
    generate_stream_events [⟨"c", "t", "f", "d", none⟩] {} {} 2
        (fun _ _ => .error "boom") (fun _ _ _ => "q") [0] =
      SseEvent.progress 0 2 0 1 none 0 2 ::
        (eventPairs 2 1 (stream_arrivals [⟨"c", "t", "f", "d", none⟩] {} {} 2
            (fun _ _ => .error "boom") (fun _ _ _ => "q") [0]) 0 0 ++
          [.error "Agent timed out after 90s"])) ∧
    (effective_agents ([⟨"c", "t", "f", "d", none⟩] : List Control).length 2 ≤
      ([0, 1] : List Nat).length ∧
    ∀ msg, SseEvent.error msg ∉
      generate_stream_events [⟨"c", "t", "f", "d", none⟩] {} {} 2
        (fun _ _ => .error "boom") (fun _ _ _ => "q") [0, 1]) :=
  ⟨⟨by decide, (generate_stream_spec [⟨"c", "t", "f", "d", none⟩] {} {} 2
      (fun _ _ => .error "boom") (fun _ _ _ => "q") [0]).2.1 (by decide)⟩,
    ⟨by decide, ((generate_stream_spec [⟨"c", "t", "f", "d", none⟩] {} {} 2
      (fun _ _ => .error "boom") (fun _ _ _ => "q") [0, 1]).2.2 (by decide)).2⟩⟩

/-! ### C4: a failing worker is isolated in batch mode -/

theorem worker_process_batch_error (shared : String) (qpc : Nat) (e : String)
    (f1 : Nat → String) (sb : List Control) (st : WorkerState) :
    worker_process_batch shared qpc (.error e) f1 sb st =
      { st with
        stats := { st.stats with error := some e }
        calls := st.calls ++ [⟨shared, build_controls_section (format_batch_controls sb),
          _dynamic_max_tokens sb.length qpc⟩] } := rfl

theorem worker_fold_all_error (shared : String) (qpc : Nat)
    (api : Nat → Except String (String × Usage)) (f2 : Nat → Nat → String)
    (bs : List (Nat × List Control)) (st : WorkerState)
    (hbs : ∀ p ∈ bs, ∃ e, api p.1 = Except.error e) :
    (bs.foldl (fun st p =>
        worker_process_batch shared qpc (api p.1) (f2 p.1) p.2 st) st).gen = st.gen ∧
    (bs.foldl (fun st p =>
        worker_process_batch shared qpc (api p.1) (f2 p.1) p.2 st) st).stats.controls_generated =
      st.stats.controls_generated ∧
    (bs.foldl (fun st p =>
        worker_process_batch shared qpc (api p.1) (f2 p.1) p.2 st) st).stats.questions_generated =
      st.stats.questions_generated ∧
    (bs.foldl (fun st p =>
        worker_process_batch shared qpc (api p.1) (f2 p.1) p.2 st) st).stats.agent_id =
      st.stats.agent_id ∧
    (bs.foldl (fun st p =>
        worker_process_batch shared qpc (api p.1) (f2 p.1) p.2 st) st).stats.controls_assigned =
      st.stats.controls_assigned ∧
    (bs ≠ [] → ((bs.foldl (fun st p =>
        worker_process_batch shared qpc (api p.1) (f2 p.1) p.2 st) st).stats.error).isSome) := by
  induction bs generalizing st with
  | nil => simp
  | cons b bs ih =>
    obtain ⟨e, he⟩ := hbs b (List.mem_cons_self b bs)
    rw [List.foldl_cons, he, worker_process_batch_error]
    obtain ⟨h1, h2, h3, h4, h5, h6⟩ :=
      ih _ (fun p hp => hbs p (List.mem_cons_of_mem b hp))
    refine ⟨h1, h2, h3, h4, h5, fun _ => ?_⟩
    rcases hbs' : bs with _ | ⟨b', bs'⟩
    · subst hbs'; simp
    · subst hbs'; exact h6 (by simp)

theorem chunkGo_ne_nil (fuel size : Nat) (l : List α) (hl : l ≠ []) (hf : fuel ≠ 0) :
    chunkGo fuel size l ≠ [] := by
  cases fuel with
  | zero => exact absurd rfl hf
  | succ fuel =>
    cases l with
    | nil => exact absurd rfl hl
    | cons a t => simp [chunkGo]

theorem sub_batches_ne_nil (controls : List α) (bs : Nat) (h : controls ≠ []) :
    sub_batches controls bs ≠ [] := by
  unfold sub_batches
  split
  · exact chunkGo_ne_nil _ _ _ h (by cases controls with
      | nil => exact absurd rfl h
      | cons a t => simp)
  · simp

theorem worker_generate_all_error (agent_id : Nat) (controls : List Control)
    (shared : String) (qpc : Nat) (api : Nat → Except String (String × Usage))
    (f2 : Nat → Nat → String) (hne : controls ≠ [])
    (hfail : ∀ b, ∃ e, api b = Except.error e) :
    (worker_generate agent_id controls shared qpc api f2).1 = [] ∧
    ((worker_generate agent_id controls shared qpc api f2).2.1.error).isSome ∧
    (worker_generate agent_id controls shared qpc api f2).2.1.questions_generated = 0 ∧
    (worker_generate agent_id controls shared qpc api f2).2.1.controls_generated = 0 ∧
    (worker_generate agent_id controls shared qpc api f2).2.1.agent_id = agent_id ∧
    (worker_generate agent_id controls shared qpc api f2).2.1.controls_assigned =
      controls.length := by
  unfold worker_generate
  rw [if_neg (by simp [hne])]
  have h := worker_fold_all_error shared qpc api f2
    ((sub_batches controls (_effective_batch_size qpc)).enum)
    ⟨[], { agent_id := agent_id, controls_assigned := controls.length }, []⟩
    (fun p _ => hfail p.1)
  obtain ⟨h1, h2, h3, h4, h5, h6⟩ := h
  refine ⟨h1, h6 ?_, h3, h2, h4, h5⟩
  have := sub_batches_ne_nil controls (_effective_batch_size qpc) hne
  simpa using this

theorem generate_controls_eq (controls : List Control) (context : Context)
    (criteria : Criteria) (num_agents : Nat)
    (api : Nat → Nat → Except String (String × Usage)) (fresh3 : Nat → Nat → Nat → String) :
    (generate controls context criteria num_agents api fresh3).1.controls =
      ((List.range (effective_agents controls.length num_agents)).map (fun i =>
        (worker_generate i
          ((distribute_controls controls
            (effective_agents controls.length num_agents)).getD i [])
          (build_shared_context context
            (criteria.maturity_level.getD "recurring_assessment")
            (criteria.question_depth.getD "balanced")
            criteria.priority_domains criteria.compliance_concerns
            criteria.controls_to_skip criteria.questions_per_control)
          (criteria.questions_per_control.getD 3) (api i) (fresh3 i)).1)).flatten := by
  have h1 : (generate controls context criteria num_agents api fresh3).1 =
      aggregate (swarm_worker_results controls context criteria num_agents api fresh3) := rfl
  rw [h1, aggregate_spec]
  unfold swarm_worker_results
  simp only [List.map_map]
  rfl

theorem generate_stats_eq (controls : List Control) (context : Context)
    (criteria : Criteria) (num_agents : Nat)
    (api : Nat → Nat → Except String (String × Usage)) (fresh3 : Nat → Nat → Nat → String) :
    (generate controls context criteria num_agents api fresh3).1.agent_stats =
      (List.range (effective_agents controls.length num_agents)).map (fun i =>
        (worker_generate i
          ((distribute_controls controls
            (effective_agents controls.length num_agents)).getD i [])
          (build_shared_context context
            (criteria.maturity_level.getD "recurring_assessment")
            (criteria.question_depth.getD "balanced")
            criteria.priority_domains criteria.compliance_concerns
            criteria.controls_to_skip criteria.questions_per_control)
          (criteria.questions_per_control.getD 3) (api i) (fresh3 i)).2.1) := by
  have h1 : (generate controls context criteria num_agents api fresh3).1 =
      aggregate (swarm_worker_results controls context criteria num_agents api fresh3) := rfl
  rw [h1, aggregate_spec]
  unfold swarm_worker_results
  simp only [List.map_map]
  rfl

theorem sum_map_filter_ne (l : List Nat) (f : Nat) (g : Nat → Nat) (hg : g f = 0) :
    (((l.filter (fun i => i ≠ f)).map g).sum) = ((l.map g).sum) := by
  induction l with
  | nil => rfl
  | cons a t ih =>
    by_cases h : a = f
    · subst h
      rw [List.filter_cons_of_neg (by simp), ih, List.map_cons, List.sum_cons, hg,
        Nat.zero_add]
    · rw [List.filter_cons_of_pos (by simp [h]), List.map_cons, List.map_cons,
        List.sum_cons, List.sum_cons, ih]

/-- C4: with at least one worker whose bucket is non-empty and whose every
API call raises (non-retryable errors reach the sub-batch handler directly),
while the other workers' calls succeed, batch-mode `generate` still returns:
one `AgentStats` per launched worker (the coordinator itself does not raise),
a non-null `error` on the failing worker's stats, the concatenation of the
workers' generated `ControlQuestions` with the failing worker contributing
none, and a total question count equal to the sum over the other (successful)
workers only. -/
theorem generate_isolates_worker_failure (controls : List Control) (context : Context)
    (criteria : Criteria) (num_agents : Nat)
    (api : Nat → Nat → Except String (String × Usage)) (fresh3 : Nat → Nat → Nat → String)
    (f : Nat) (hf : f < effective_agents controls.length num_agents)
    (hbucket : (distribute_controls controls
      (effective_agents controls.length num_agents)).getD f [] ≠ [])
    (hfail : ∀ b, ∃ e, api f b = Except.error e)
    (_hok : ∀ i, i < effective_agents controls.length num_agents → i ≠ f →
      ∀ b, ∃ r, api i b = Except.ok r) :
    (generate controls context criteria num_agents api fresh3).1.agent_stats.length =
      effective_agents controls.length num_agents ∧
    (((generate controls context criteria num_agents api fresh3).1.agent_stats.getD f
      default).error).isSome ∧
    (generate controls context criteria num_agents api fresh3).1.controls =
      ((List.range (effective_agents controls.length num_agents)).map (fun i =>
        (worker_generate i
          ((distribute_controls controls
            (effective_agents controls.length num_agents)).getD i [])
          (build_shared_context context
            (criteria.maturity_level.getD "recurring_assessment")
            (criteria.question_depth.getD "balanced")
            criteria.priority_domains criteria.compliance_concerns
            criteria.controls_to_skip criteria.questions_per_control)
          (criteria.questions_per_control.getD 3) (api i) (fresh3 i)).1)).flatten ∧
    (worker_generate f
      ((distribute_controls controls (effective_agents controls.length num_agents)).getD f [])
      (build_shared_context context
        (criteria.maturity_level.getD "recurring_assessment")
        (criteria.question_depth.getD "balanced")
        criteria.priority_domains criteria.compliance_concerns
        criteria.controls_to_skip criteria.questions_per_control)
      (criteria.questions_per_control.getD 3) (api f) (fresh3 f)).1 = [] ∧
    (((generate controls context criteria num_agents api fresh3).1.agent_stats.map
        (fun s => s.questions_generated)).sum =
      ((((List.range (effective_agents controls.length num_agents)).filter
          (fun i => i ≠ f)).map (fun i =>
        (worker_generate i
          ((distribute_controls controls
            (effective_agents controls.length num_agents)).getD i [])
          (build_shared_context context
            (criteria.maturity_level.getD "recurring_assessment")
            (criteria.question_depth.getD "balanced")
            criteria.priority_domains criteria.compliance_concerns
            criteria.controls_to_skip criteria.questions_per_control)
          (criteria.questions_per_control.getD 3) (api i)
          (fresh3 i)).2.1.questions_generated)).sum)) := by
  have hwf := worker_generate_all_error f
    ((distribute_controls controls (effective_agents controls.length num_agents)).getD f [])
    (build_shared_context context
      (criteria.maturity_level.getD "recurring_assessment")
      (criteria.question_depth.getD "balanced")
      criteria.priority_domains criteria.compliance_concerns
      criteria.controls_to_skip criteria.questions_per_control)
    (criteria.questions_per_control.getD 3) (api f) (fresh3 f) hbucket hfail
  refine ⟨?_, ?_, generate_controls_eq _ _ _ _ _ _, hwf.1, ?_⟩
  · rw [generate_stats_eq]
    simp
  · rw [generate_stats_eq]
    rw [List.getD_eq_getElem _ _ (by simpa using hf)]
    simp only [List.getElem_map, List.getElem_range]
    exact hwf.2.1
  · rw [generate_stats_eq, List.map_map]
    exact (sum_map_filter_ne (List.range (effective_agents controls.length num_agents)) f _
      hwf.2.2.1).symm

/-- Witness for `generate_isolates_worker_failure`: two controls, two workers,
worker 0 always failing and worker 1 always succeeding with an empty array. -/
theorem generate_isolates_worker_failure_witness :
    (generate [⟨"c1", "t", "fw", "d", none⟩, ⟨"c2", "t", "fw", "d", none⟩] {} {} 2
      (fun i _ => if i = 0 then .error "boom" else .ok ("[]", {}))
      (fun _ _ _ => "q")).1.agent_stats.length =
      effective_agents ([⟨"c1", "t", "fw", "d", none⟩,
        ⟨"c2", "t", "fw", "d", none⟩] : List Control).length 2 ∧
    (((generate [⟨"c1", "t", "fw", "d", none⟩, ⟨"c2", "t", "fw", "d", none⟩] {} {} 2
      (fun i _ => if i = 0 then .error "boom" else .ok ("[]", {}))
      (fun _ _ _ => "q")).1.agent_stats.getD 0 default).error).isSome := by
  have h := generate_isolates_worker_failure
    [⟨"c1", "t", "fw", "d", none⟩, ⟨"c2", "t", "fw", "d", none⟩] {} {} 2
    (fun i _ => if i = 0 then .error "boom" else .ok ("[]", {}))
    (fun _ _ _ => "q") 0 (by decide) (by decide)
    (fun b => ⟨"boom", rfl⟩)
    (fun i _ hne b => ⟨("[]", {}), by simp only []; rw [if_neg hne]⟩)
  exact ⟨h.1, h.2.1⟩

/-! ### C5: each control reaches exactly one bucket and one sub-batch;
duplicates in the output -/

theorem trim_responseIds (cs : List ControlQuestions) :
    responseIds (_validate_and_trim_questions cs) = responseIds cs := by
  unfold responseIds _validate_and_trim_questions
  rw [List.map_map]
  rfl

theorem chunkGo_flatten (size : Nat) (hs : 0 < size) :
    ∀ (fuel : Nat) (l : List α), l.length ≤ fuel → (chunkGo fuel size l).flatten = l := by
  intro fuel
  induction fuel with
  | zero =>
    intro l hl
    rw [List.length_eq_zero.mp (Nat.le_zero.mp hl)]
    rfl
  | succ fuel ih =>
    intro l hl
    cases l with
    | nil => rfl
    | cons a t =>
      have hstep : chunkGo (fuel + 1) size (a :: t) =
          (a :: t).take size :: chunkGo fuel size ((a :: t).drop size) := rfl
      have hdl : ((a :: t).drop size).length ≤ fuel := by
        rw [List.length_drop]
        simp only [List.length_cons] at hl ⊢
        omega
      rw [hstep, List.flatten_cons, ih ((a :: t).drop size) hdl, List.take_append_drop]

theorem sub_batches_flatten (l : List α) (bs : Nat) (hs : 0 < bs) :
    (sub_batches l bs).flatten = l := by
  unfold sub_batches
  split
  · exact chunkGo_flatten bs hs l.length l le_rfl
  · simp

theorem worker_process_batch_gen (shared : String) (qpc : Nat)
    (res : Except String (String × Usage)) (f1 : Nat → String) (sb : List Control)
    (st : WorkerState) :
    (worker_process_batch shared qpc res f1 sb st).gen = st.gen ∨
    ∃ text usage cs, res = .ok (text, usage) ∧ _parse_questions f1 text = .ok cs ∧
      (worker_process_batch shared qpc res f1 sb st).gen =
        st.gen ++ _validate_and_trim_questions cs := by
  unfold worker_process_batch
  cases res with
  | error e => exact Or.inl rfl
  | ok p =>
    obtain ⟨text, usage⟩ := p
    cases hp : _parse_questions f1 text with
    | error e => exact Or.inl (by simp [hp])
    | ok cs => exact Or.inr ⟨text, usage, cs, rfl, hp, by simp [hp]⟩

theorem worker_fold_nodup (shared : String) (qpc : Nat)
    (api : Nat → Except String (String × Usage)) (f2 : Nat → Nat → String)
    (bs : List (Nat × List Control)) (st : WorkerState)
    (hresp : ∀ p ∈ bs, respIdsOk (p.2.map (fun c => c.id)) (f2 p.1) (api p.1))
    (hst : (responseIds st.gen).Nodup)
    (hdisj : ∀ id ∈ responseIds st.gen,
      id ∉ (bs.map (fun p => p.2.map (fun c => c.id))).flatten)
    (hnd : ((bs.map (fun p => p.2.map (fun c => c.id))).flatten).Nodup) :
    (responseIds ((bs.foldl (fun st p =>
      worker_process_batch shared qpc (api p.1) (f2 p.1) p.2 st) st).gen)).Nodup ∧
    (∀ id ∈ responseIds ((bs.foldl (fun st p =>
        worker_process_batch shared qpc (api p.1) (f2 p.1) p.2 st) st).gen),
      id ∈ responseIds st.gen ∨
        id ∈ (bs.map (fun p => p.2.map (fun c => c.id))).flatten) := by
  induction bs generalizing st with
  | nil => exact ⟨hst, fun id h => Or.inl h⟩
  | cons b bs ih =>
    rw [List.foldl_cons]
    have hndtail : ((bs.map (fun p => p.2.map (fun c => c.id))).flatten).Nodup := by
      rw [List.map_cons, List.flatten_cons, List.nodup_append] at hnd
      exact hnd.2.1
    have hbdisj : (b.2.map (fun c => c.id)).Disjoint
        ((bs.map (fun p => p.2.map (fun c => c.id))).flatten) := by
      rw [List.map_cons, List.flatten_cons, List.nodup_append] at hnd
      exact hnd.2.2
    rcases worker_process_batch_gen shared qpc (api b.1) (f2 b.1) b.2 st with
      hsame | ⟨text, usage, cs, hres, hparse, happ⟩
    · have := ih (worker_process_batch shared qpc (api b.1) (f2 b.1) b.2 st)
        (fun p hp => hresp p (List.mem_cons_of_mem b hp))
        (by rw [hsame]; exact hst)
        (by
          rw [hsame]
          intro id hid
          have := hdisj id hid
          rw [List.map_cons, List.flatten_cons] at this
          exact fun hmem => this (List.mem_append_right _ hmem))
        hndtail
      refine ⟨this.1, fun id hid => ?_⟩
      rcases this.2 id hid with h | h
      · rw [hsame] at h; exact Or.inl h
      · rw [List.map_cons, List.flatten_cons]
        exact Or.inr (List.mem_append_right _ h)
    · obtain ⟨hcs, hsub⟩ := hresp b (List.mem_cons_self b bs) text usage cs hres hparse
      have hgen' : responseIds (worker_process_batch shared qpc (api b.1)
          (f2 b.1) b.2 st).gen = responseIds st.gen ++ responseIds cs := by
        rw [happ]
        unfold responseIds
        rw [List.map_append]
        rw [show (_validate_and_trim_questions cs).map (fun c => c.control_id) =
          responseIds (_validate_and_trim_questions cs) from rfl, trim_responseIds]
        rfl
      have hstdisj : ∀ id ∈ responseIds st.gen, id ∉ responseIds cs := by
        intro id hid hmem
        have hidb : id ∈ b.2.map (fun c => c.id) := hsub id hmem
        have := hdisj id hid
        rw [List.map_cons, List.flatten_cons] at this
        exact this (List.mem_append_left _ hidb)
      have hst' : (responseIds (worker_process_batch shared qpc (api b.1)
          (f2 b.1) b.2 st).gen).Nodup := by
        rw [hgen', List.nodup_append]
        exact ⟨hst, hcs, hstdisj⟩
      have := ih (worker_process_batch shared qpc (api b.1) (f2 b.1) b.2 st)
        (fun p hp => hresp p (List.mem_cons_of_mem b hp))
        hst'
        (by
          rw [hgen']
          intro id hid
          rcases List.mem_append.mp hid with h | h
          · have := hdisj id h
            rw [List.map_cons, List.flatten_cons] at this
            exact fun hmem => this (List.mem_append_right _ hmem)
          · exact fun hmem => hbdisj (hsub id h) hmem)
        hndtail
      refine ⟨this.1, fun id hid => ?_⟩
      rcases this.2 id hid with h | h
      · rw [hgen'] at h
        rcases List.mem_append.mp h with h | h
        · exact Or.inl h
        · rw [List.map_cons, List.flatten_cons]
          exact Or.inr (List.mem_append_left _ (hsub id h))
      · rw [List.map_cons, List.flatten_cons]
        exact Or.inr (List.mem_append_right _ h)

theorem worker_generate_nodup (agent_id : Nat) (controls : List Control) (shared : String)
    (qpc : Nat) (api : Nat → Except String (String × Usage)) (f2 : Nat → Nat → String)
    (hresp : ∀ p ∈ (sub_batches controls (_effective_batch_size qpc)).enum,
      respIdsOk (p.2.map (fun c => c.id)) (f2 p.1) (api p.1))
    (hnd : (controls.map (fun c => c.id)).Nodup) :
    (responseIds (worker_generate agent_id controls shared qpc api f2).1).Nodup ∧
    (∀ id ∈ responseIds (worker_generate agent_id controls shared qpc api f2).1,
      id ∈ controls.map (fun c => c.id)) := by
  have hflat : (((sub_batches controls (_effective_batch_size qpc)).enum.map
      (fun p => p.2.map (fun c => c.id))).flatten) = controls.map (fun c => c.id) := by
    have h1 : ((sub_batches controls (_effective_batch_size qpc)).enum.map
        (fun p => p.2.map (fun c => c.id))) =
        (sub_batches controls (_effective_batch_size qpc)).map
          (fun sb => sb.map (fun c => c.id)) := by
      have : (fun p : Nat × List Control => p.2.map (fun c => c.id)) =
          (fun sb : List Control => sb.map (fun c => c.id)) ∘ Prod.snd := rfl
      rw [this, ← List.map_map, List.enum_map_snd]
    rw [h1, ← List.map_flatten, sub_batches_flatten]
    have h5 : 5 ≤ _effective_batch_size qpc := Nat.le_max_left _ _
    omega
  cases hc : controls.isEmpty with
  | true =>
    have hceq : controls = [] := by simpa using hc
    subst hceq
    refine ⟨?_, ?_⟩
    · show (responseIds ([] : List ControlQuestions)).Nodup
      exact List.nodup_nil
    · intro id hid
      have : id ∈ responseIds ([] : List ControlQuestions) := hid
      simp [responseIds] at this
  | false =>
    unfold worker_generate
    rw [if_neg (by simp [hc])]
    have := worker_fold_nodup shared qpc api f2
      ((sub_batches controls (_effective_batch_size qpc)).enum)
      ⟨[], { agent_id := agent_id, controls_assigned := controls.length }, []⟩
      hresp (by simp [responseIds]) (by simp [responseIds]) (by rw [hflat]; exact hnd)
    refine ⟨this.1, fun id hid => ?_⟩
    rcases this.2 id hid with h | h
    · simp [responseIds] at h
    · rw [hflat] at h
      exact h

/-- C5 counterexample: nothing deduplicates the parsed model output, so a
response naming the same control twice puts two entries for that control into
`SwarmResult.controls`.  This falsifies the unconditional "never contains
duplicate entries for the same control". -/
theorem swarm_duplicate_counterexample :
    (generate [⟨"A", "t", "fw", "d", none⟩] {} {} 1
      (fun _ _ => .ok ("[\x7b\"control_id\":\"A\"\x7d,\x7b\"control_id\":\"A\"\x7d]", {}))
      (fun _ _ _ => "q")).1.controls =
      [⟨"A", "", "", []⟩, ⟨"A", "", "", []⟩] ∧
    ¬ (responseIds [(⟨"A", "", "", []⟩ : ControlQuestions),
      ⟨"A", "", "", []⟩]).Nodup := by
  exact ⟨rfl, by decide⟩

/-- C5, amended: every input control is placed in exactly one worker's bucket
(the buckets' concatenation is a permutation of the input) and occurs in
exactly one of that worker's sub-batches (their concatenation is exactly the
bucket), hence in at most one API call; a control may end up with no entry in
the result; and provided the input control ids are distinct and each API
call's parsed response names each control at most once and only controls of
that call's own sub-batch, `SwarmResult.controls` contains no duplicate
entries for the same control.  (Without the response-side proviso the
no-duplicates conjunct is false, see the counterexample.) -/
theorem swarm_no_duplicate_controls (controls : List Control) (context : Context)
    (criteria : Criteria) (num_agents : Nat)
    (api : Nat → Nat → Except String (String × Usage)) (fresh3 : Nat → Nat → Nat → String)
    (hna : 1 ≤ num_agents)
    (hnd : (controls.map (fun c => c.id)).Nodup)
    (hresp : ∀ i, i < effective_agents controls.length num_agents →
      ∀ p ∈ (sub_batches
          ((distribute_controls controls (effective_agents controls.length num_agents)).getD
            i [])
          (_effective_batch_size (criteria.questions_per_control.getD 3))).enum,
        respIdsOk (p.2.map (fun c => c.id)) (fresh3 i p.1) (api i p.1)) :
    (distribute_controls controls
      (effective_agents controls.length num_agents)).flatten.Perm controls ∧
    (∀ i, (sub_batches
        ((distribute_controls controls (effective_agents controls.length num_agents)).getD
          i [])
        (_effective_batch_size (criteria.questions_per_control.getD 3))).flatten =
      (distribute_controls controls (effective_agents controls.length num_agents)).getD
        i []) ∧
    (responseIds (generate controls context criteria num_agents api fresh3).1.controls).Nodup
    := by
  have heff : 0 < effective_agents controls.length num_agents := by
    unfold effective_agents _optimal_worker_count
    split_ifs <;> omega
  have hbs : 0 < _effective_batch_size (criteria.questions_per_control.getD 3) :=
    Nat.lt_of_lt_of_le (by norm_num)
      (Nat.le_max_left 5 _)
  refine ⟨distribute_controls_flatten controls _ heff,
    fun i => sub_batches_flatten _ _ hbs, ?_⟩
  -- bucket-id facts
  have hblen : (distribute_controls controls
      (effective_agents controls.length num_agents)).length =
      effective_agents controls.length num_agents :=
    distribute_controls_length controls _
  have hpermids : (((distribute_controls controls
      (effective_agents controls.length num_agents)).map
        (fun b => b.map (fun c => c.id))).flatten).Perm (controls.map (fun c => c.id)) := by
    rw [← List.map_flatten]
    exact (distribute_controls_flatten controls _ heff).map _
  have hbidsnodup := (hpermids.nodup_iff).mpr hnd
  obtain ⟨heach, hpair⟩ := List.nodup_flatten.mp hbidsnodup
  -- per-worker facts
  have hworker : ∀ i, i < effective_agents controls.length num_agents →
      (responseIds (worker_generate i
        ((distribute_controls controls (effective_agents controls.length num_agents)).getD
          i [])
        (build_shared_context context
          (criteria.maturity_level.getD "recurring_assessment")
          (criteria.question_depth.getD "balanced")
          criteria.priority_domains criteria.compliance_concerns
          criteria.controls_to_skip criteria.questions_per_control)
        (criteria.questions_per_control.getD 3) (api i) (fresh3 i)).1).Nodup ∧
      (∀ id ∈ responseIds (worker_generate i
        ((distribute_controls controls (effective_agents controls.length num_agents)).getD
          i [])
        (build_shared_context context
          (criteria.maturity_level.getD "recurring_assessment")
          (criteria.question_depth.getD "balanced")
          criteria.priority_domains criteria.compliance_concerns
          criteria.controls_to_skip criteria.questions_per_control)
        (criteria.questions_per_control.getD 3) (api i) (fresh3 i)).1,
        id ∈ ((distribute_controls controls
          (effective_agents controls.length num_agents)).getD i []).map
            (fun c => c.id)) := by
    intro i hi
    apply worker_generate_nodup _ _ _ _ _ _ (hresp i hi)
    have hmem : (distribute_controls controls
        (effective_agents controls.length num_agents)).getD i [] ∈
        distribute_controls controls (effective_agents controls.length num_agents) := by
      rw [List.getD_eq_getElem _ _ (by omega)]
      exact List.getElem_mem (by omega)
    exact heach _ (List.mem_map_of_mem _ hmem)
  -- assemble the flatten nodup
  rw [generate_controls_eq]
  unfold responseIds
  rw [List.map_flatten, List.map_map]
  apply List.nodup_flatten.mpr
  constructor
  · intro l hl
    obtain ⟨i, hi, rfl⟩ := List.mem_map.mp hl
    have hilt : i < effective_agents controls.length num_agents := List.mem_range.mp hi
    exact (hworker i hilt).1
  · rw [List.pairwise_map]
    rw [List.pairwise_iff_getElem]
    intro a b ha hb hab
    simp only [List.getElem_range]
    have halt : a < effective_agents controls.length num_agents := by
      simpa using ha
    have hblt : b < effective_agents controls.length num_agents := by
      simpa using hb
    have haly : a < (distribute_controls controls
        (effective_agents controls.length num_agents)).length := by
      rw [hblen]; exact halt
    have hbly : b < (distribute_controls controls
        (effective_agents controls.length num_agents)).length := by
      rw [hblen]; exact hblt
    have hdj : (((distribute_controls controls
        (effective_agents controls.length num_agents)).getD a []).map
          (fun c => c.id)).Disjoint
        (((distribute_controls controls
          (effective_agents controls.length num_agents)).getD b []).map
            (fun c => c.id)) := by
      have hthis := List.pairwise_iff_getElem.mp hpair a b
        (by simpa using haly) (by simpa using hbly)
        (by simpa using hab)
      rw [List.getD_eq_getElem _ _ haly, List.getD_eq_getElem _ _ hbly]
      simpa [List.getElem_map] using hthis
    exact List.disjoint_of_subset_left (hworker a halt).2
      (List.disjoint_of_subset_right (hworker b hblt).2 hdj)

/-- Witness for `swarm_no_duplicate_controls`: two distinct controls, two
workers, every call answering with the empty JSON array. -/
theorem swarm_no_duplicate_controls_witness :
    (responseIds (generate
      [⟨"A", "t", "fw", "d", none⟩, ⟨"B", "t", "fw", "d", none⟩] {} {} 2
      (fun _ _ => .ok ("[]", {})) (fun _ _ _ => "q")).1.controls).Nodup := by
  have h := swarm_no_duplicate_controls
    [⟨"A", "t", "fw", "d", none⟩, ⟨"B", "t", "fw", "d", none⟩] {} {} 2
    (fun _ _ => .ok ("[]", {})) (fun _ _ _ => "q")
    (by decide) (by decide) ?_
  · exact h.2.2
  · intro i _ p _ text usage cs he hp
    injection he with hpair
    injection hpair with h1 h2
    subst h1
    have hcs : cs = [] := by
      have hpp : (Except.ok [] : Except PyErr (List ControlQuestions)) = .ok cs := by
        rw [← hp]
        rfl
      exact (Except.ok.inj hpp).symm
    subst hcs
    exact ⟨List.nodup_nil, by simp [responseIds]⟩

/-! ### C3 proof development: digits and numbers -/

theorem digitChar_isDigit (n : Nat) (h : n < 10) : (digitChar n).isDigit = true := by
  interval_cases n <;> rfl

theorem digitChar_toNat (n : Nat) (h : n < 10) : (digitChar n).toNat = 48 + n := by
  interval_cases n <;> rfl

theorem natDigitsAux_irrel (n : Nat) : ∀ fuel fuel2, n < fuel → n < fuel2 →
    natDigitsAux fuel n = natDigitsAux fuel2 n := by
  induction n using Nat.strong_induction_on with
  | _ n ih =>
    intro fuel fuel2 hf hf2
    cases fuel with
    | zero => omega
    | succ f =>
      cases fuel2 with
      | zero => omega
      | succ f2 =>
        rw [natDigitsAux, natDigitsAux]
        by_cases h10 : n < 10
        · rw [if_pos h10, if_pos h10]
        · rw [if_neg h10, if_neg h10,
            ih (n / 10) (by omega) f f2 (by omega) (by omega)]

theorem natDigits_step (n : Nat) (h : 10 ≤ n) :
    natDigits n = natDigits (n / 10) ++ [digitChar (n % 10)] := by
  unfold natDigits
  rw [natDigitsAux, if_neg (by omega)]
  congr 1
  exact natDigitsAux_irrel (n / 10) n (n / 10 + 1) (by omega) (by omega)

theorem natDigits_small (n : Nat) (h : n < 10) : natDigits n = [digitChar n] := by
  unfold natDigits
  rw [natDigitsAux, if_pos h]

theorem natDigits_all_digit (n : Nat) : ∀ c ∈ natDigits n, c.isDigit = true := by
  induction n using Nat.strong_induction_on with
  | _ n ih =>
    by_cases h10 : n < 10
    · rw [natDigits_small n h10]
      intro c hc
      rw [List.mem_singleton.mp hc]
      exact digitChar_isDigit n h10
    · rw [natDigits_step n (by omega)]
      intro c hc
      rcases List.mem_append.mp hc with hm | hm
      · exact ih (n / 10) (by omega) c hm
      · rw [List.mem_singleton.mp hm]
        exact digitChar_isDigit _ (Nat.mod_lt _ (by omega))

theorem natDigits_ne_nil (n : Nat) : natDigits n ≠ [] := by
  by_cases h10 : n < 10
  · rw [natDigits_small n h10]; simp
  · rw [natDigits_step n (by omega)]; simp

theorem digitsToNat_append_single (ds : List Char) (c : Char) :
    digitsToNat (ds ++ [c]) = 10 * digitsToNat ds + (c.toNat - 48) := by
  unfold digitsToNat
  rw [List.foldl_append]
  rfl

theorem digitsToNat_natDigits (n : Nat) : digitsToNat (natDigits n) = n := by
  induction n using Nat.strong_induction_on with
  | _ n ih =>
    by_cases h10 : n < 10
    · rw [natDigits_small n h10]
      show digitsToNat ([] ++ [digitChar n]) = n
      rw [digitsToNat_append_single, digitChar_toNat n h10]
      have h0 : digitsToNat ([] : List Char) = 0 := rfl
      omega
    · rw [natDigits_step n (by omega), digitsToNat_append_single, ih (n / 10) (by omega),
        digitChar_toNat _ (Nat.mod_lt _ (by omega))]
      omega

theorem numBoundary_not_digit (c : Char) (t : List Char)
    (h : numBoundary (c :: t) = true) : c.isDigit = false := by
  unfold numBoundary at h
  simp only [Bool.not_eq_eq_eq_not, Bool.not_true, Bool.or_eq_false_iff] at h
  exact h.1.1.1

theorem numBoundary_startsFrac (rest : List Char) (h : numBoundary rest = true) :
    startsFrac rest = false := by
  cases rest with
  | nil => rfl
  | cons c t =>
    unfold numBoundary at h
    unfold startsFrac
    simp only [Bool.not_eq_eq_eq_not, Bool.not_true, Bool.or_eq_false_iff,
      decide_eq_false_iff_not] at h ⊢
    tauto

theorem takeDigits_append (ds rest : List Char) (hds : ∀ c ∈ ds, c.isDigit = true)
    (hrest : numBoundary rest = true) :
    takeDigits (ds ++ rest) = (ds, rest) := by
  induction ds with
  | nil =>
    rw [List.nil_append]
    cases rest with
    | nil => rfl
    | cons c t =>
      rw [takeDigits, if_neg (by rw [numBoundary_not_digit c t hrest]; simp)]
  | cons d ds ih =>
    rw [List.cons_append, takeDigits,
      if_pos (hds d (List.mem_cons_self d ds)),
      ih (fun c hc => hds c (List.mem_cons_of_mem d hc))]

theorem parseNumber_renderInt (k : Int) (rest : List Char)
    (hrest : numBoundary rest = true) :
    parseNumber (renderInt k ++ rest) = some (.num k, rest) := by
  have hdigits := takeDigits_append (natDigits k.natAbs) rest
    (natDigits_all_digit k.natAbs) hrest
  obtain ⟨d, ds, hds⟩ : ∃ d ds, natDigits k.natAbs = d :: ds := by
    cases h : natDigits k.natAbs with
    | nil => exact absurd h (natDigits_ne_nil _)
    | cons d ds => exact ⟨d, ds, rfl⟩
  have hd : d.isDigit = true := natDigits_all_digit k.natAbs d (by rw [hds]; simp)
  unfold renderInt
  by_cases hk : k < 0
  · rw [if_pos hk, List.cons_append, parseNumber, if_pos rfl, hdigits]
    rw [hds]
    simp only []
    rw [numBoundary_startsFrac rest hrest]
    simp only [Bool.false_eq_true, if_false, ← hds, digitsToNat_natDigits]
    have hkk : -(k.natAbs : Int) = k := by omega
    rw [hkk]
  · rw [if_neg hk, hds, List.cons_append, parseNumber,
      if_neg (fun he => absurd (he ▸ hd) (by decide)), ← List.cons_append, ← hds, hdigits]
    rw [hds]
    simp only []
    rw [numBoundary_startsFrac rest hrest]
    simp only [Bool.false_eq_true, if_false, ← hds, digitsToNat_natDigits]
    have hkk : (k.natAbs : Int) = k := by omega
    rw [hkk]

/-! ### C3 proof development: strings -/

theorem psb_escaped (e u : Char) (hu : unescape e = some u) (t : List Char)
    (s r : List Char) (ht : parseStringBody t = some (s, r)) :
    parseStringBody ('\\' :: e :: t) = some (u :: s, r) := by
  have ht' : psbGo false t = some (s, r) := ht
  have heq : parseStringBody ('\\' :: e :: t) =
      (match unescape e, psbGo false t with
       | some u, some (s, r) => some (u :: s, r)
       | _, _ => none) := rfl
  rw [heq, hu, ht']

theorem psb_raw (c : Char) (h1 : ¬c = '"') (h2 : ¬c = '\\') (h3 : ¬c.toNat < 32)
    (t s r : List Char) (ht : parseStringBody t = some (s, r)) :
    parseStringBody (c :: t) = some (c :: s, r) := by
  have ht' : psbGo false t = some (s, r) := ht
  have heq : parseStringBody (c :: t) =
      (if c = '"' then some ([], t)
       else if c = '\\' then psbGo true t
       else if c.toNat < 32 then none
       else
         match psbGo false t with
         | some (s, r) => some (c :: s, r)
         | none => none) := rfl
  rw [heq, if_neg h1, if_neg h2, if_neg h3, ht']

theorem parseStringBody_escape (cs : List Char) (rest : List Char)
    (h : cs.all goodChar = true) :
    parseStringBody (escapeBody cs ++ '"' :: rest) = some (cs, rest) := by
  induction cs with
  | nil => rfl
  | cons c cs ih =>
    simp only [List.all_cons, Bool.and_eq_true] at h
    obtain ⟨hc, hcs⟩ := h
    rw [escapeBody, List.append_assoc]
    unfold escapeChar
    by_cases h1 : c = '"'
    · subst h1
      rw [if_pos rfl]
      exact psb_escaped '"' '"' rfl _ _ _ (ih hcs)
    · rw [if_neg h1]
      by_cases h2 : c = '\\'
      · subst h2
        rw [if_pos rfl]
        exact psb_escaped '\\' '\\' rfl _ _ _ (ih hcs)
      · rw [if_neg h2]
        by_cases h3 : c = '\n'
        · subst h3
          rw [if_pos rfl]
          exact psb_escaped 'n' '\n' rfl _ _ _ (ih hcs)
        · rw [if_neg h3]
          by_cases h4 : c = '\t'
          · subst h4
            rw [if_pos rfl]
            exact psb_escaped 't' '\t' rfl _ _ _ (ih hcs)
          · rw [if_neg h4]
            by_cases h5 : c = '\r'
            · subst h5
              rw [if_pos rfl]
              exact psb_escaped 'r' '\r' rfl _ _ _ (ih hcs)
            · rw [if_neg h5]
              have h32 : ¬c.toNat < 32 := by
                unfold goodChar at hc
                simp only [Bool.or_eq_true, decide_eq_true_eq] at hc
                rcases hc with ((hge | hnl) | htb) | hcr
                · omega
                · exact absurd hnl h3
                · exact absurd htb h4
                · exact absurd hcr h5
              show parseStringBody (c :: (escapeBody cs ++ '"' :: rest)) = _
              exact psb_raw c h1 h2 h32 _ _ _ (ih hcs)

/-! ### C3 proof development: parser step lemmas -/

theorem skipWs_cons (c : Char) (t : List Char) (hws : isWsB c = false) :
    skipWs (c :: t) = c :: t := by
  rw [skipWs, if_neg (by simp [hws])]

theorem parseVal_cons (f : Nat) (c : Char) (t : List Char) (hws : isWsB c = false) :
    parseVal (f + 1) (c :: t) =
      (if c = '"' then
        match parseStringBody t with
        | some (content, r) => some (.str (String.mk content), r)
        | none => none
      else if c = '[' then parseArrRest f t
      else if c = '{' then parseObjRest f t
      else if c = 'n' then
        match dropLiteral ['u', 'l', 'l'] t with
        | some r => some (.null, r)
        | none => none
      else if c = 't' then
        match dropLiteral ['r', 'u', 'e'] t with
        | some r => some (.bool true, r)
        | none => none
      else if c = 'f' then
        match dropLiteral ['a', 'l', 's', 'e'] t with
        | some r => some (.bool false, r)
        | none => none
      else parseNumber (c :: t)) := by
  rw [parseVal, skipWs_cons c t hws]

theorem digit_facts (d : Char) (hd : d.isDigit = true) :
    isWsB d = false ∧ d ≠ '"' ∧ d ≠ '[' ∧ d ≠ '{' ∧ d ≠ 'n' ∧ d ≠ 't' ∧
      d ≠ 'f' ∧ d ≠ ']' := by
  have hne : ∀ c : Char, c.isDigit = false → d ≠ c := by
    intro c hc he
    rw [he] at hd
    rw [hd] at hc
    exact Bool.noConfusion hc
  have hsp : d ≠ ' ' := hne ' ' (by decide)
  have hnl : d ≠ '\n' := hne '\n' (by decide)
  have htb : d ≠ '\t' := hne '\t' (by decide)
  have hcr : d ≠ '\r' := hne '\r' (by decide)
  refine ⟨?_, hne '"' (by decide), hne '[' (by decide), hne '{' (by decide),
    hne 'n' (by decide), hne 't' (by decide), hne 'f' (by decide),
    hne ']' (by decide)⟩
  simp [isWsB, hsp, hnl, htb, hcr]

/-- Every rendered value starts with a non-whitespace character that is not a
closing bracket. -/
theorem render_head (v : Json) :
    ∃ c t, v.render = c :: t ∧ isWsB c = false ∧ c ≠ ']' := by
  cases v with
  | null => exact ⟨_, _, rfl, rfl, by decide⟩
  | bool b => cases b <;> exact ⟨_, _, rfl, rfl, by decide⟩
  | str s => exact ⟨_, _, rfl, rfl, by decide⟩
  | arr es => exact ⟨_, _, rfl, rfl, by decide⟩
  | obj fs => exact ⟨_, _, rfl, rfl, by decide⟩
  | num n =>
    by_cases hneg : n < 0
    · refine ⟨'-', natDigits n.natAbs, ?_, by decide, by decide⟩
      show renderInt n = _
      rw [renderInt, if_pos hneg]
    · obtain ⟨d, ds, hd⟩ := List.exists_cons_of_ne_nil (natDigits_ne_nil n.natAbs)
      have hdig : d.isDigit = true := natDigits_all_digit n.natAbs d (by rw [hd]; simp)
      obtain ⟨hws, _, _, _, _, _, _, hcl⟩ := digit_facts d hdig
      refine ⟨d, ds, ?_, hws, hcl⟩
      show renderInt n = _
      rw [renderInt, if_neg hneg, hd]

theorem parseArrRest_step (f : Nat) (c : Char) (t : List Char)
    (hws : isWsB c = false) (hc : ¬c = ']') :
    parseArrRest (f + 1) (c :: t) =
      (match parseElems f (c :: t) with
       | some (es, r) => some (.arr es, r)
       | none => none) := by
  rw [parseArrRest]
  simp only [skipWs_cons c t hws]
  split
  · rename_i heq
    injection heq with h1 _
    exact absurd h1 hc
  · rfl

theorem parseElems_succ (f : Nat) (input : List Char) :
    parseElems (f + 1) input =
      (match parseVal f input with
       | some (v, r) =>
         match skipWs r with
         | ',' :: r2 =>
           match parseElems f r2 with
           | some (es, r3) => some (v :: es, r3)
           | none => none
         | ']' :: r2 => some ([v], r2)
         | _ => none
       | none => none) := rfl

theorem parseFields_quote (f : Nat) (t : List Char) :
    parseFields (f + 1) ('"' :: t) =
      (match parseStringBody t with
       | some (key, r) =>
         match skipWs r with
         | ':' :: r2 =>
           match parseVal f r2 with
           | some (v, r3) =>
             match skipWs r3 with
             | ',' :: r4 =>
               match parseFields f r4 with
               | some (fs, r5) => some ((String.mk key, v) :: fs, r5)
               | none => none
             | '}' :: r4 => some ([(String.mk key, v)], r4)
             | _ => none
           | none => none
         | _ => none
       | none => none) := rfl

theorem parseObjRest_quote (f : Nat) (t : List Char) :
    parseObjRest (f + 1) ('"' :: t) =
      (match parseFields f ('"' :: t) with
       | some (fs, r) => some (.obj fs, r)
       | none => none) := rfl

/-- Mutual render/parse roundtrip, by strong induction on the fuel. -/
theorem parse_render_mutual : ∀ fuel : Nat,
    (∀ v rest, goodJson v = true → 3 * v.render.length + 1 ≤ fuel →
      numBoundary rest = true → parseVal fuel (v.render ++ rest) = some (v, rest)) ∧
    (∀ es rest, es ≠ [] → goodElems es = true →
      3 * (renderElems es).length + 2 ≤ fuel →
      parseElems fuel (renderElems es ++ ']' :: rest) = some (es, rest)) ∧
    (∀ fs rest, fs ≠ [] → goodFields fs = true →
      3 * (renderFields fs).length + 2 ≤ fuel →
      parseFields fuel (renderFields fs ++ '}' :: rest) = some (fs, rest)) := by
  intro fuel
  induction fuel using Nat.strong_induction_on with
  | _ fuel ih =>
    refine ⟨?_, ?_, ?_⟩
    · -- parseVal roundtrip
      intro v rest hg hfuel hnb
      obtain ⟨f, rfl⟩ : ∃ f, fuel = f + 1 := ⟨fuel - 1, by omega⟩
      cases v with
      | null => exact rfl
      | bool b => cases b with
        | true => exact rfl
        | false => exact rfl
      | num n =>
        by_cases hneg : n < 0
        · have hri : renderInt n = '-' :: natDigits n.natAbs := by
            rw [renderInt, if_pos hneg]
          have h1 : parseVal (f + 1) ((Json.num n).render ++ rest) =
              parseNumber (renderInt n ++ rest) := by
            rw [show (Json.num n).render = renderInt n from rfl, hri]
            rfl
          rw [h1, parseNumber_renderInt n rest hnb]
        · obtain ⟨d, ds, hd⟩ := List.exists_cons_of_ne_nil (natDigits_ne_nil n.natAbs)
          have hdig : d.isDigit = true :=
            natDigits_all_digit n.natAbs d (by rw [hd]; simp)
          obtain ⟨hws, hq, hlb, hcb, hn, ht, hf, _⟩ := digit_facts d hdig
          have hri : renderInt n = d :: ds := by
            rw [renderInt, if_neg hneg, hd]
          have h1 : parseVal (f + 1) ((Json.num n).render ++ rest) =
              parseVal (f + 1) (d :: (ds ++ rest)) := by
            rw [show (Json.num n).render = renderInt n from rfl, hri]
            rfl
          rw [h1, parseVal_cons f d (ds ++ rest) hws, if_neg hq, if_neg hlb,
            if_neg hcb, if_neg hn, if_neg ht, if_neg hf]
          have h2 : d :: (ds ++ rest) = renderInt n ++ rest := by
            rw [hri]
            rfl
          rw [h2, parseNumber_renderInt n rest hnb]
      | str s =>
        have hgs : s.data.all goodChar = true := hg
        have h1 : parseVal (f + 1) ((Json.str s).render ++ rest) =
            (match parseStringBody ((escapeBody s.data ++ ['"']) ++ rest) with
             | some (content, r) => some (.str (String.mk content), r)
             | none => none) := rfl
        rw [h1, show (escapeBody s.data ++ ['"']) ++ rest =
          escapeBody s.data ++ '"' :: rest by simp,
          parseStringBody_escape s.data rest hgs]
      | arr es =>
        have h1 : parseVal (f + 1) ((Json.arr es).render ++ rest) =
            parseArrRest f ((renderElems es ++ [']']) ++ rest) := rfl
        rw [h1, show (renderElems es ++ [']']) ++ rest =
          renderElems es ++ ']' :: rest by simp]
        cases es with
        | nil =>
          obtain ⟨f', rfl⟩ : ∃ f', f = f' + 1 := by
            have hL : (Json.arr ([] : List Json)).render.length = 2 := rfl
            exact ⟨f - 1, by omega⟩
          exact rfl
        | cons e es' =>
          have hL : (Json.arr (e :: es')).render.length =
              (renderElems (e :: es')).length + 2 := by
            show ('[' :: (renderElems (e :: es') ++ [']'])).length = _
            simp
          obtain ⟨f', rfl⟩ : ∃ f', f = f' + 1 := ⟨f - 1, by omega⟩
          obtain ⟨c, t, hct, hcw, hcl⟩ := render_head e
          obtain ⟨u, hu⟩ : ∃ u, renderElems (e :: es') = c :: u := by
            cases es' with
            | nil => exact ⟨t, hct⟩
            | cons e2 es'' =>
              refine ⟨t ++ ',' :: renderElems (e2 :: es''), ?_⟩
              rw [show renderElems (e :: e2 :: es'') =
                e.render ++ ',' :: renderElems (e2 :: es'') from rfl, hct]
              rfl
          rw [hu, List.cons_append, parseArrRest_step f' c _ hcw hcl,
            show c :: (u ++ ']' :: rest) = renderElems (e :: es') ++ ']' :: rest by
              rw [hu, List.cons_append]]
          have hQ := (ih f' (by omega)).2.1 (e :: es') rest (by simp)
            hg (by omega)
          rw [hQ]
      | obj fs =>
        have h1 : parseVal (f + 1) ((Json.obj fs).render ++ rest) =
            parseObjRest f ((renderFields fs ++ ['}']) ++ rest) := rfl
        rw [h1, show (renderFields fs ++ ['}']) ++ rest =
          renderFields fs ++ '}' :: rest by simp]
        cases fs with
        | nil =>
          obtain ⟨f', rfl⟩ : ∃ f', f = f' + 1 := by
            have hL : (Json.obj ([] : List (String × Json))).render.length = 2 := rfl
            exact ⟨f - 1, by omega⟩
          exact rfl
        | cons kv fs' =>
          obtain ⟨k, v⟩ := kv
          have hL : (Json.obj ((k, v) :: fs')).render.length =
              (renderFields ((k, v) :: fs')).length + 2 := by
            show ('{' :: (renderFields ((k, v) :: fs') ++ ['}'])).length = _
            simp
          obtain ⟨f', rfl⟩ : ∃ f', f = f' + 1 := ⟨f - 1, by omega⟩
          obtain ⟨u, hu⟩ : ∃ u, renderFields ((k, v) :: fs') = '"' :: u := by
            cases fs' with
            | nil => exact ⟨_, rfl⟩
            | cons g fs'' => exact ⟨_, rfl⟩
          rw [hu, List.cons_append, parseObjRest_quote,
            show ('"' : Char) :: (u ++ '}' :: rest) =
              renderFields ((k, v) :: fs') ++ '}' :: rest by
              rw [hu, List.cons_append]]
          have hR := (ih f' (by omega)).2.2 ((k, v) :: fs') rest (by simp)
            hg (by omega)
          rw [hR]
    · -- parseElems roundtrip
      intro es rest hne hg hfuel
      obtain ⟨f, rfl⟩ : ∃ f, fuel = f + 1 := ⟨fuel - 1, by omega⟩
      cases es with
      | nil => exact absurd rfl hne
      | cons e es' =>
        have hand : goodJson e = true ∧ goodElems es' = true := by
          have h := hg
          simp only [goodElems, Bool.and_eq_true] at h
          exact h
        cases es' with
        | nil =>
          have h1 : renderElems [e] = e.render := rfl
          have hlen : (renderElems [e]).length = e.render.length := by rw [h1]
          rw [h1, parseElems_succ]
          have hP := (ih f (by omega)).1 e (']' :: rest) hand.1 (by omega) rfl
          rw [hP]
          rfl
        | cons e2 es'' =>
          have h1 : renderElems (e :: e2 :: es'') =
              e.render ++ ',' :: renderElems (e2 :: es'') := rfl
          have hlen := congrArg List.length h1
          simp only [List.length_append, List.length_cons] at hlen
          rw [h1, List.append_assoc, List.cons_append, parseElems_succ]
          have hP := (ih f (by omega)).1 e
            (',' :: (renderElems (e2 :: es'') ++ ']' :: rest)) hand.1
            (by omega) rfl
          rw [hP]
          show (match parseElems f (renderElems (e2 :: es'') ++ ']' :: rest) with
                | some (es, r3) => some (e :: es, r3)
                | none => none) = some (e :: e2 :: es'', rest)
          have hQ := (ih f (by omega)).2.1 (e2 :: es'') rest (by simp)
            hand.2 (by omega)
          rw [hQ]
    · -- parseFields roundtrip
      intro fs rest hne hg hfuel
      obtain ⟨f, rfl⟩ : ∃ f, fuel = f + 1 := ⟨fuel - 1, by omega⟩
      cases fs with
      | nil => exact absurd rfl hne
      | cons kv fs' =>
        obtain ⟨k, v⟩ := kv
        have hand : (goodString k = true ∧ goodJson v = true) ∧ goodFields fs' = true := by
          have h := hg
          simp only [goodFields, Bool.and_eq_true] at h
          exact h
        cases fs' with
        | nil =>
          have h1 : renderFields [(k, v)] = renderString k ++ ':' :: v.render := rfl
          have hshape : renderFields [(k, v)] ++ '}' :: rest =
              '"' :: (escapeBody k.data ++ '"' :: ':' :: (v.render ++ '}' :: rest)) := by
            rw [h1, renderString]
            simp
          have hlen := congrArg List.length h1
          simp only [renderString, List.length_append, List.length_cons] at hlen
          rw [hshape, parseFields_quote,
            parseStringBody_escape k.data (':' :: (v.render ++ '}' :: rest)) hand.1.1]
          show (match parseVal f (v.render ++ '}' :: rest) with
                | some (v', r3) =>
                  match skipWs r3 with
                  | ',' :: r4 =>
                    match parseFields f r4 with
                    | some (fs, r5) => some ((String.mk k.data, v') :: fs, r5)
                    | none => none
                  | '}' :: r4 => some ([(String.mk k.data, v')], r4)
                  | _ => none
                | none => none) = some ([(k, v)], rest)
          have hP := (ih f (by omega)).1 v ('}' :: rest) hand.1.2 (by omega) rfl
          rw [hP]
          rfl
        | cons g fs'' =>
          obtain ⟨k2, v2⟩ := g
          have h1 : renderFields ((k, v) :: (k2, v2) :: fs'') =
              renderString k ++ ':' :: v.render ++
                ',' :: renderFields ((k2, v2) :: fs'') := rfl
          have hshape : renderFields ((k, v) :: (k2, v2) :: fs'') ++ '}' :: rest =
              '"' :: (escapeBody k.data ++ '"' :: ':' ::
                (v.render ++ ',' ::
                  (renderFields ((k2, v2) :: fs'') ++ '}' :: rest))) := by
            rw [h1, renderString]
            simp
          have hlen := congrArg List.length h1
          simp only [renderString, List.length_append, List.length_cons] at hlen
          rw [hshape, parseFields_quote,
            parseStringBody_escape k.data
              (':' :: (v.render ++ ',' ::
                (renderFields ((k2, v2) :: fs'') ++ '}' :: rest)))
              hand.1.1]
          show (match parseVal f
                  (v.render ++ ',' ::
                    (renderFields ((k2, v2) :: fs'') ++ '}' :: rest)) with
                | some (v', r3) =>
                  match skipWs r3 with
                  | ',' :: r4 =>
                    match parseFields f r4 with
                    | some (fs, r5) => some ((String.mk k.data, v') :: fs, r5)
                    | none => none
                  | '}' :: r4 => some ([(String.mk k.data, v')], r4)
                  | _ => none
                | none => none) = some ((k, v) :: (k2, v2) :: fs'', rest)
          have hP := (ih f (by omega)).1 v
            (',' :: (renderFields ((k2, v2) :: fs'') ++ '}' :: rest)) hand.1.2
            (by omega) rfl
          rw [hP]
          show (match parseFields f
                  (renderFields ((k2, v2) :: fs'') ++ '}' :: rest) with
                | some (fs, r5) => some ((String.mk k.data, v) :: fs, r5)
                | none => none) = some ((k, v) :: (k2, v2) :: fs'', rest)
          have hR := (ih f (by omega)).2.2 ((k2, v2) :: fs'') rest (by simp)
            hand.2 (by omega)
          rw [hR]

/-- `jsonParse` inverts the compact renderer on good values. -/
theorem jsonParse_render (v : Json) (hv : goodJson v = true) :
    jsonParse v.render = some v := by
  unfold jsonParse
  have h := (parse_render_mutual (3 * v.render.length + 1)).1 v [] hv (by omega) rfl
  rw [List.append_nil] at h
  rw [h]
  rfl

/-! ### C3: locating the last object boundary -/

theorem hasSub_false_no_occ (sub s : List Char) (h : hasSub sub s = false) :
    ∀ q, sub.isPrefixOf (s.drop q) = false := by
  induction s with
  | nil =>
    intro q
    rw [List.drop_nil]
    exact h
  | cons c t ih =>
    have h2 : (sub.isPrefixOf (c :: t) || hasSub sub t) = false := h
    simp only [Bool.or_eq_false_iff] at h2
    intro q
    cases q with
    | zero => exact h2.1
    | succ q' =>
      rw [List.drop_succ_cons]
      exact ih h2.2 q'

theorem rfindSub_none (sub s : List Char)
    (h : ∀ q, sub.isPrefixOf (s.drop q) = false) : rfindSub sub s = none := by
  induction s with
  | nil =>
    have h0 : sub.isPrefixOf ([] : List Char) = false := h 0
    simp [rfindSub, h0]
  | cons c t ih =>
    have hnone : rfindSub sub t = none := ih (fun q => by
      have hq := h (q + 1)
      rwa [List.drop_succ_cons] at hq)
    have h0 : sub.isPrefixOf (c :: t) = false := h 0
    rw [rfindSub, hnone]
    simp [h0]

theorem rfindSub_last (sub : List Char) (s : List Char) (p : Nat)
    (hocc : sub.isPrefixOf (s.drop p) = true)
    (hafter : ∀ q, p < q → sub.isPrefixOf (s.drop q) = false) :
    rfindSub sub s = some p := by
  induction s generalizing p with
  | nil =>
    have h1 := hafter (p + 1) (by omega)
    rw [List.drop_nil] at hocc h1
    rw [hocc] at h1
    exact Bool.noConfusion h1
  | cons c t ih =>
    cases p with
    | zero =>
      have hnone : rfindSub sub t = none := rfindSub_none sub t (fun q => by
        have hq := hafter (q + 1) (by omega)
        rwa [List.drop_succ_cons] at hq)
      have h0 : sub.isPrefixOf (c :: t) = true := hocc
      rw [rfindSub, hnone]
      simp [h0]
    | succ p' =>
      have hocc' : sub.isPrefixOf (t.drop p') = true := by
        rwa [List.drop_succ_cons] at hocc
      have hafter' : ∀ q, p' < q → sub.isPrefixOf (t.drop q) = false := fun q hq => by
        have h1 := hafter (q + 1) (by omega)
        rwa [List.drop_succ_cons] at h1
      rw [rfindSub, ih p' hocc' hafter']

theorem render_obj_ends (e : Json) (he : isObj e = true) :
    ∃ w, e.render = w ++ ['}'] := by
  cases e with
  | obj fs =>
    refine ⟨'{' :: renderFields fs, ?_⟩
    show '{' :: (renderFields fs ++ ['}']) = _
    simp
  | null => exact Bool.noConfusion he
  | bool b => exact Bool.noConfusion he
  | num n => exact Bool.noConfusion he
  | str s => exact Bool.noConfusion he
  | arr es => exact Bool.noConfusion he

theorem renderElems_ends_brace (objs : List Json) (hne : objs ≠ [])
    (hobj : objs.all isObj = true) :
    ∃ u, renderElems objs = u ++ ['}'] := by
  induction objs with
  | nil => exact absurd rfl hne
  | cons e es ih =>
    simp only [List.all_cons, Bool.and_eq_true] at hobj
    cases es with
    | nil =>
      obtain ⟨w, hw⟩ := render_obj_ends e hobj.1
      exact ⟨w, by rw [show renderElems [e] = e.render from rfl, hw]⟩
    | cons e2 es' =>
      obtain ⟨u, hu⟩ := ih (by simp) hobj.2
      refine ⟨e.render ++ ',' :: u, ?_⟩
      rw [show renderElems (e :: e2 :: es') =
        e.render ++ ',' :: renderElems (e2 :: es') from rfl, hu]
      simp

theorem repairStrat1_recovers (objs : List Json) (tail : List Char)
    (hne : objs ≠ []) (hobj : objs.all isObj = true)
    (hgood : goodJson (Json.arr objs) = true)
    (htail : hasSub ['}', ','] tail = false) :
    repairStrat1 ('[' :: (renderElems objs ++ ',' :: tail)) =
      some (Json.arr objs).render := by
  obtain ⟨u, hu⟩ := renderElems_ends_brace objs hne hobj
  have hsplit : '[' :: (renderElems objs ++ ',' :: tail) =
      ('[' :: u) ++ '}' :: ',' :: tail := by
    rw [hu]
    simp
  have hlen : ('[' :: u).length = u.length + 1 := by simp
  have hp : rfindSub ['}', ','] ('[' :: (renderElems objs ++ ',' :: tail)) =
      some (u.length + 1) := by
    apply rfindSub_last
    · rw [hsplit, ← hlen, List.drop_left]
      simp [List.isPrefixOf]
    · intro q hq
      rw [hsplit]
      obtain ⟨m, rfl⟩ : ∃ m, q = (u.length + 1) + (m + 1) :=
        ⟨q - u.length - 2, by omega⟩
      rw [← hlen, List.drop_append]
      cases m with
      | zero => simp [List.isPrefixOf]
      | succ m' =>
        rw [show ('}' :: ',' :: tail).drop (m' + 1 + 1) = tail.drop m' from rfl]
        exact hasSub_false_no_occ ['}', ','] tail htail m'
  have hcand : repairCandidate ('[' :: (renderElems objs ++ ',' :: tail))
      (u.length + 1) = (Json.arr objs).render := by
    unfold repairCandidate
    have h2 : '[' :: (renderElems objs ++ ',' :: tail) =
        ('[' :: renderElems objs) ++ ',' :: tail := by simp
    have h3 : ('[' :: renderElems objs).length = u.length + 1 + 1 := by
      rw [hu]
      simp
    rw [h2, ← h3, List.take_left]
    show _ = '[' :: (renderElems objs ++ [']'])
    simp
  unfold repairStrat1
  rw [hp]
  simp only [hcand, jsonParse_render _ hgood, Option.isSome_some, if_true]

/-- Strategy 1 already succeeds, so the full repair cascade returns its
candidate. -/
theorem tryRepair_recovers (objs : List Json) (tail : List Char)
    (hne : objs ≠ []) (hobj : objs.all isObj = true)
    (hgood : goodJson (Json.arr objs) = true)
    (htail : hasSub ['}', ','] tail = false) :
    tryRepairTruncatedJson ('[' :: (renderElems objs ++ ',' :: tail)) =
      some (Json.arr objs).render := by
  unfold tryRepairTruncatedJson
  rw [repairStrat1_recovers objs tail hne hobj hgood htail]

/-- C3 counterexample: the well-formed JSON array of objects
`[ \x7b "a": "xy" \x7d ]` (second conjunct: it renders and parses back),
truncated mid-string inside its last element after 8 characters (yielding
the 8 characters `[ \x7b "a": "x`), defeats all three repair strategies:
`_try_repair_truncated_json` returns `None`, whereas the claim demands a
string parsing to the array of the complete leading elements (here the
empty array). -/
theorem try_repair_counterexample :
    _try_repair_truncated_json
      (String.mk ((Json.arr [Json.obj [("a", Json.str "xy")]]).render.take 8)) =
        none ∧
    jsonParse (Json.arr [Json.obj [("a", Json.str "xy")]]).render =
      some (Json.arr [Json.obj [("a", Json.str "xy")]]) :=
  ⟨rfl, rfl⟩

/-- C3 (amended): if the truncated text consists of an opening bracket, the
compact rendering of the complete leading object elements, a comma, and a
truncated tail containing no object boundary `\x7d,`, then repair strategy 1
succeeds: `_try_repair_truncated_json` returns the compact rendering of the
array of exactly the complete leading elements, which parses back to those
elements. -/
theorem try_repair_truncated_spec (objs : List Json) (tail : List Char)
    (hne : objs ≠ []) (hobj : objs.all isObj = true)
    (hgood : goodJson (Json.arr objs) = true)
    (htail : hasSub ['}', ','] tail = false) :
    _try_repair_truncated_json
        (String.mk ('[' :: (renderElems objs ++ ',' :: tail))) =
      some (String.mk (Json.arr objs).render) ∧
    jsonParse (Json.arr objs).render = some (Json.arr objs) := by
  constructor
  · show (tryRepairTruncatedJson
      ('[' :: (renderElems objs ++ ',' :: tail))).map String.mk = _
    rw [tryRepair_recovers objs tail hne hobj hgood htail]
    rfl
  · exact jsonParse_render _ hgood

/-- C3 witness: the array `[ \x7b "a": "xy" \x7d, \x7b "b": "wo" \x7d ]`
truncated mid-string inside its second element is repaired to the
one-element array of its complete leading element. -/
theorem try_repair_truncated_spec_witness :
    _try_repair_truncated_json
        (String.mk ('[' :: (renderElems [Json.obj [("a", Json.str "xy")]] ++
          ',' :: (Json.obj [("b", Json.str "wo")]).render.take 7))) =
      some (String.mk (Json.arr [Json.obj [("a", Json.str "xy")]]).render) :=
  (try_repair_truncated_spec [Json.obj [("a", Json.str "xy")]]
    ((Json.obj [("b", Json.str "wo")]).render.take 7)
    (by simp) rfl rfl rfl).1

end QuestionSwarm
